import Mathlib

/-!
Verification development for the voice mock-interview WebSocket backend
(src/server.js, with the earlier revision in src/unnamed/part_000).

The shallow embedding below models, from src/server.js (the current
revision, which is the authority):

* the rubric-JSON parse fallback and score aggregation of
  `evaluateConversation` (src/server.js:797-963);
* the per-connection WebSocket message loop (src/server.js:1031-1475) as a
  serialized step function `handleEvent` over a connection state that holds
  the audio-chunk buffer, the active session id and the session registry
  (`SESSIONS`, src/server.js:967);
* a fine-grained interleaving model (`stepAudioEnd`, `stepStop`) of the two
  handlers that can both decide to evaluate, split at their `await` points,
  used to settle the exactly-once-evaluation claim;
* the async call structure of the two LLM requests issued by
  `evaluateConversation` via `Promise.all` (src/server.js:845-919).

External collaborators (the chat/STT/TTS services) are opaque one-shot
request/response calls in the source; they are modelled by an `Oracle`
supplying their results.  Binary TTS chunks are elided from outputs (only
the terminating `tts_done` marker is kept); they are opaque to every claim.
Configuration fields of the session state that no claim observes
(role, level, language, persona text, etc.) are elided from `SessionState`
with the exception of those the handlers branch on.
-/

/-- One transcript entry (src/server.js:205-215): speaker role
("interviewer" or "candidate") and text.  The JS field is named `from`,
which is a Lean keyword, hence `from_`. -/
structure Utterance where
  from_ : String
  text : String
deriving DecidableEq, Repr

/-- Result of the JS `Number(x)` coercion applied to a rubric field:
either a numeric value or NaN (non-numeric field). -/
inductive JNum where
  | num (n : Int)
  | nan
deriving DecidableEq, Repr

/-- The JS expression `Number(x) || 0` (src/server.js:951-956): NaN is
falsy and becomes 0; a numeric value passes through (0 maps to 0 anyway). -/
def numOr0 : JNum → Int
  | .num n => n
  | .nan => 0

/-- The rubric fields relevant to the claims, as held in the `parsed`
object of `evaluateConversation` (src/server.js:922-942).  The fields
`questions_answered`, `total_questions`, `strengths`, `improvements`,
`hiring_tips`, `dos`, `donts` are elided: no claim mentions them and they
do not feed the score. -/
structure Rubric where
  communication : JNum
  technical : JNum
  problem_solving : JNum
  behavior : JNum
  relevance : JNum
  answer_quality : String
  notes : String
deriving DecidableEq, Repr

/-- The default `parsed` object of src/server.js:922-942: every axis 5,
`answer_quality` "fair". -/
def defaultRubric : Rubric :=
  { communication := .num 5
    technical := .num 5
    problem_solving := .num 5
    behavior := .num 5
    relevance := .num 5
    answer_quality := "fair"
    notes := "Evaluation in progress." }

/-- The fields of a successfully `JSON.parse`d rubric object; a field is
`none` when the key is absent from the parsed JSON (a non-object parse
result behaves like an object with none of these keys). -/
structure RubricJson where
  communication : Option JNum := none
  technical : Option JNum := none
  problem_solving : Option JNum := none
  behavior : Option JNum := none
  relevance : Option JNum := none
  answer_quality : Option String := none
  notes : Option String := none
deriving DecidableEq, Repr

/-- The JS object spread `{ ...parsed, ...j }` (src/server.js:945-946):
keys present in `j` override the defaults, absent keys keep them. -/
def mergeRubric (d : Rubric) (j : RubricJson) : Rubric :=
  { communication := j.communication.getD d.communication
    technical := j.technical.getD d.technical
    problem_solving := j.problem_solving.getD d.problem_solving
    behavior := j.behavior.getD d.behavior
    relevance := j.relevance.getD d.relevance
    answer_quality := j.answer_quality.getD d.answer_quality
    notes := j.notes.getD d.notes }

/-- The try/catch around `JSON.parse(rubricJSON)` (src/server.js:944-949):
`none` means the parse threw and the defaults stand; `some j` merges the
parsed fields over the defaults. -/
def parseRubric : Option RubricJson → Rubric
  | none => defaultRubric
  | some j => mergeRubric defaultRubric j

/-- The `total` of `evaluateConversation` (src/server.js:951-956): the sum
of the five axes, each coerced with `Number(x) || 0`.  No clamping is
applied. -/
def rubricTotal (r : Rubric) : Int :=
  numOr0 r.communication + numOr0 r.technical + numOr0 r.problem_solving +
    numOr0 r.behavior + numOr0 r.relevance

/-- Clamping of one axis into [0,10]. -/
def clamp010 (n : Int) : Int := max 0 (min 10 n)

/-- Modelled from the spec (not from the source, for comparison with
`rubricTotal`): "`overallScore` is defined as the sum of the five rubric
axes, each independently clamped into [0,10]". -/
def specOverallScore (r : Rubric) : Int :=
  clamp010 (numOr0 r.communication) + clamp010 (numOr0 r.technical) +
    clamp010 (numOr0 r.problem_solving) + clamp010 (numOr0 r.behavior) +
    clamp010 (numOr0 r.relevance)

/-- Results of the external collaborators for one handler step.  Every
upstream call is one-shot in the source; its reply is an input here.
`sttText` is the trimmed Whisper transcription ("" covers both the STT
failure and the empty-text result, src/server.js:1320-1346); `rubricJson`
is the outcome of `JSON.parse` on the rubric reply (`none` = parse threw). -/
structure Oracle where
  personaText : String
  greetingText : String
  replyText : String
  sttText : String
  rubricJson : Option RubricJson
  summaryText : String
deriving DecidableEq, Repr

/-- Return value of `evaluateConversation` (src/server.js:958-962). -/
structure EvalResult where
  overallScore : Int
  summaryText : String
  rubric : Rubric
deriving DecidableEq, Repr

/-- Embeds the result of `evaluateConversation` (src/server.js:797-963):
parse the rubric reply with defaults, sum the five axes unclamped, return
the summary reply verbatim.  The transcript-derived strings only feed the
LLM prompts and the elided rubric count fields, so they do not appear. -/
def evaluateConversation (o : Oracle) : EvalResult :=
  let parsed := parseRubric o.rubricJson
  { overallScore := rubricTotal parsed
    summaryText := o.summaryText
    rubric := parsed }

/-- Outbound messages (src/server.js:993-998).  Binary TTS chunks are
elided; `ttsDone` marks each `ttsToWS` completion.  `transcriptUpdate` is
tagged with the id of the session whose transcript it carries (the wire
message carries only the transcript; the tag is observational, for stating
per-session ordering). -/
inductive ServerMsg where
  | session (sessionId : Nat)
  | persona (text : String)
  | ttsDone
  | transcriptUpdate (sessionId : Nat) (transcript : List Utterance)
  | doneMsg (summaryText : String) (overallScore : Int) (rubric : Rubric)
  | errorMsg (error : String)
deriving DecidableEq, Repr

/-- The mutable per-session state (src/server.js:1131-1148) restricted to
the fields the handlers branch on or the claims observe. -/
structure SessionState where
  transcript : List Utterance
  turns : Int
  maxTurns : Int
  done : Bool
  overallScore : Int
deriving DecidableEq, Repr

/-- One connection of the WebSocket server (src/server.js:1001-1007):
the connection-local `sessionId` and `audioChunks`, plus the global
`SESSIONS` registry (per-process; modelled per connection since sessions
are only ever addressed by the connection that created them) with a
counter standing for the uuid generator. -/
structure ConnState where
  sessionId : Option Nat
  audioChunks : List (List Nat)
  sessions : List (Nat × SessionState)
  nextId : Nat
deriving DecidableEq, Repr

/-- Registry lookup, `SESSIONS.get(id)` (src/server.js:1275). -/
def lookupSession : List (Nat × SessionState) → Nat → Option SessionState
  | [], _ => none
  | (k, v) :: rest, id => if k = id then some v else lookupSession rest id

/-- Registry write, `SESSIONS.set(id, { state })` (src/server.js:1243):
replace the binding if present, else add it. -/
def setSession : List (Nat × SessionState) → Nat → SessionState →
    List (Nat × SessionState)
  | [], id, st => [(id, st)]
  | (k, v) :: rest, id, st =>
      if k = id then (id, st) :: rest else (k, v) :: setSession rest id st

/-- The pure turn decision of src/server.js:1372: continue the interview
while `turns < maxTurns - 1`, otherwise evaluate. -/
def turnDecisionContinue (turns maxTurns : Int) : Bool :=
  turns < maxTurns - 1

/-- Inbound events on one connection: the four control messages
(src/server.js:986-991), a binary audio frame, an unparseable frame, and
the transport close event. -/
inductive ConnEvent where
  | startMsg (maxTurnsOpt : Option Int)
  | audioStart
  | binaryFrame (bytes : List Nat)
  | audioEnd
  | stopMsg
  | invalidJson
  | closeConn
deriving DecidableEq, Repr

/-- The sentinel candidate utterance of the empty-buffer branch
(src/server.js:1290). -/
def noAudioSentinel : Utterance := ⟨"candidate", "(no audio received)"⟩

/-- The `start` handler (src/server.js:1047-1263): allocate a fresh id,
create the session record, register it, emit the `session` message, the
`persona` message when the persona text is non-empty (the JS truthiness
test on `state.styleTemplate`), stream the greeting (elided chunks +
`tts_done`), append the greeting utterance and emit the first
`transcript_update`.  `maxTurns` defaults to 6 when absent
(src/server.js:1142). -/
def handleStart (o : Oracle) (c : ConnState) (maxTurnsOpt : Option Int) :
    ConnState × List ServerMsg :=
  let sid := c.nextId
  let st1 : SessionState :=
    { transcript := [⟨"interviewer", o.greetingText⟩]
      turns := 0
      maxTurns := maxTurnsOpt.getD 6
      done := false
      overallScore := 0 }
  ({ c with
      sessionId := some sid
      nextId := c.nextId + 1
      sessions := setSession c.sessions sid st1 },
   [ServerMsg.session sid] ++
     (if o.personaText = "" then [] else [ServerMsg.persona o.personaText]) ++
     [ServerMsg.ttsDone, ServerMsg.transcriptUpdate sid st1.transcript])

/-- The `answer_audio_end` handler (src/server.js:1274-1426) under the
serialized (one message at a time) semantics: session lookup with
`session_not_found` on failure; no-op when the session is done; the
empty-buffer branch appends the sentinel, emits a `transcript_update` and
returns; otherwise append the transcription (or its "(no speech
recognized)" fallback), emit an update, and either generate the next
interviewer turn (turn decision of src/server.js:1372) or evaluate, set
`done`, and emit the `done` message before the final update.  The done
re-check of src/server.js:1360-1367 reads the same stored state here, so
it is subsumed by the entry check; the interleaved model below has it
explicitly. -/
def handleAudioEnd (o : Oracle) (c : ConnState) : ConnState × List ServerMsg :=
  match c.sessionId with
  | none => (c, [ServerMsg.errorMsg "session_not_found"])
  | some sid =>
    match lookupSession c.sessions sid with
    | none => (c, [ServerMsg.errorMsg "session_not_found"])
    | some st =>
      if st.done then (c, [])
      else if c.audioChunks = [] then
        let tr := st.transcript ++ [noAudioSentinel]
        let st2 := { st with transcript := tr }
        ({ c with sessions := setSession c.sessions sid st2 },
         [ServerMsg.transcriptUpdate sid tr])
      else
        let candText := if o.sttText = "" then "(no speech recognized)" else o.sttText
        let tr1 := st.transcript ++ [⟨"candidate", candText⟩]
        if turnDecisionContinue st.turns st.maxTurns && !st.done then
          let tr2 := tr1 ++ [⟨"interviewer", o.replyText⟩]
          let st2 := { st with transcript := tr2, turns := st.turns + 1 }
          ({ c with sessions := setSession c.sessions sid st2 },
           [ServerMsg.transcriptUpdate sid tr1, ServerMsg.transcriptUpdate sid tr2,
            ServerMsg.ttsDone])
        else
          let ev := evaluateConversation o
          let tr2 := tr1 ++ [⟨"interviewer", ev.summaryText⟩]
          let st2 := { st with transcript := tr2, done := true,
                               overallScore := ev.overallScore }
          ({ c with sessions := setSession c.sessions sid st2 },
           [ServerMsg.transcriptUpdate sid tr1,
            ServerMsg.doneMsg ev.summaryText ev.overallScore ev.rubric,
            ServerMsg.transcriptUpdate sid tr2, ServerMsg.ttsDone])

/-- The `stop` handler (src/server.js:1429-1470): clear the audio buffer
first (before any suspension), then look up the session, no-op when done,
otherwise evaluate, set `done`, append the summary, emit the `done`
message, the final update, and the background summary TTS marker. -/
def handleStop (o : Oracle) (c : ConnState) : ConnState × List ServerMsg :=
  let c1 := { c with audioChunks := ([] : List (List Nat)) }
  match c1.sessionId with
  | none => (c1, [ServerMsg.errorMsg "session_not_found"])
  | some sid =>
    match lookupSession c1.sessions sid with
    | none => (c1, [ServerMsg.errorMsg "session_not_found"])
    | some st =>
      if st.done then (c1, [])
      else
        let ev := evaluateConversation o
        let tr := st.transcript ++ [⟨"interviewer", ev.summaryText⟩]
        let st2 := { st with transcript := tr, done := true,
                             overallScore := ev.overallScore }
        ({ c1 with sessions := setSession c1.sessions sid st2 },
         [ServerMsg.doneMsg ev.summaryText ev.overallScore ev.rubric,
          ServerMsg.transcriptUpdate sid tr, ServerMsg.ttsDone])

/-- One serialized step of the per-connection message loop
(src/server.js:1031-1475).  Binary frames are accumulated
(src/server.js:1033-1036); an unparseable control frame reports
`invalid_json` (src/server.js:1038-1044); `answer_audio_start` resets the
buffer (src/server.js:1266-1271); the close handler only logs
(src/server.js:1027-1029), leaving all state untouched. -/
def handleEvent (o : Oracle) (c : ConnState) : ConnEvent → ConnState × List ServerMsg
  | .startMsg m => handleStart o c m
  | .audioStart => ({ c with audioChunks := [] }, [])
  | .binaryFrame bytes => ({ c with audioChunks := c.audioChunks ++ [bytes] }, [])
  | .audioEnd => handleAudioEnd o c
  | .stopMsg => handleStop o c
  | .invalidJson => (c, [ServerMsg.errorMsg "invalid_json"])
  | .closeConn => (c, [])

/-- Run a sequence of events, each with the collaborator replies it
consumes, concatenating the outbound messages. -/
def runConn : ConnState → List (Oracle × ConnEvent) → ConnState × List ServerMsg
  | c, [] => (c, [])
  | c, (o, e) :: rest =>
      let r := handleEvent o c e
      let r2 := runConn r.1 rest
      (r2.1, r.2 ++ r2.2)

/-- A freshly opened connection (src/server.js:1001-1007) against an empty
registry. -/
def initConn : ConnState :=
  { sessionId := none, audioChunks := [], sessions := [], nextId := 0 }

/-!
Interleaved model of the stop / answer_audio_end race.

Node runs each `ws.on("message")` callback synchronously up to its first
`await`; while one handler is suspended at an `await`, the handler of a
later message runs.  The two handlers below are therefore split into
atomic segments at their `await` points (src/server.js:1274-1426 and
1429-1470).  Both operate on one registered, not-yet-done session; the
registry entry is shared by reference in the source, so both segments read
and write the same record.  Registry lookups succeed throughout and are
elided.  Program counters: `aePc` 0 = handler entry, 1 = transcription
returned, 2 = next-turn generation returned, 3 = evaluation returned,
4 = turn TTS returned, 9 = finished; `stPc` 0 = entry, 1 = evaluation
returned, 9 = finished.
-/

/-- Shared state of the interleaved model: the connection audio buffer,
the session record fields, the outbound messages, and the two handler
program counters. -/
structure RaceState where
  audioChunks : List (List Nat)
  transcript : List Utterance
  turns : Int
  maxTurns : Int
  done : Bool
  overallScore : Int
  outputs : List ServerMsg
  aePc : Nat
  stPc : Nat
deriving DecidableEq, Repr

/-- One segment of the `answer_audio_end` handler (src/server.js:1274-1426).
Segment 0 is the synchronous prefix up to the Whisper `await`: done guard,
empty-buffer branch (sentinel + update + return).  Segment 1 resumes after
transcription: candidate push, update, the done re-check of
src/server.js:1360-1367 (now against possibly changed shared state), then
the turn decision.  Segment 2 resumes after question generation, segment 4
after the question TTS, segment 3 after `evaluateConversation`: only there
is `done` finally set to true. -/
def stepAudioEnd (o : Oracle) (s : RaceState) : RaceState :=
  if s.aePc = 0 then
    if s.done then { s with aePc := 9 }
    else if s.audioChunks = [] then
      let tr := s.transcript ++ [noAudioSentinel]
      { s with transcript := tr,
               outputs := s.outputs ++ [ServerMsg.transcriptUpdate 0 tr],
               aePc := 9 }
    else { s with aePc := 1 }
  else if s.aePc = 1 then
    let candText := if o.sttText = "" then "(no speech recognized)" else o.sttText
    let tr1 := s.transcript ++ [⟨"candidate", candText⟩]
    let s1 := { s with transcript := tr1,
                       outputs := s.outputs ++ [ServerMsg.transcriptUpdate 0 tr1] }
    if s1.done then { s1 with aePc := 9 }
    else if turnDecisionContinue s1.turns s1.maxTurns && !s1.done then
      { s1 with aePc := 2 }
    else { s1 with aePc := 3 }
  else if s.aePc = 2 then
    let tr2 := s.transcript ++ [⟨"interviewer", o.replyText⟩]
    { s with transcript := tr2, turns := s.turns + 1,
             outputs := s.outputs ++ [ServerMsg.transcriptUpdate 0 tr2],
             aePc := 4 }
  else if s.aePc = 4 then
    { s with outputs := s.outputs ++ [ServerMsg.ttsDone], aePc := 9 }
  else if s.aePc = 3 then
    let ev := evaluateConversation o
    let tr2 := s.transcript ++ [⟨"interviewer", ev.summaryText⟩]
    { s with transcript := tr2, done := true, overallScore := ev.overallScore,
             outputs := s.outputs ++
               [ServerMsg.doneMsg ev.summaryText ev.overallScore ev.rubric,
                ServerMsg.transcriptUpdate 0 tr2, ServerMsg.ttsDone],
             aePc := 9 }
  else s

/-- One segment of the `stop` handler (src/server.js:1429-1470).  Segment 0
is the synchronous prefix: clear the audio buffer, done guard, then start
`evaluateConversation`.  Segment 1 resumes after the evaluation: set
`done`, push the summary, emit the `done` message, update and TTS marker. -/
def stepStop (o : Oracle) (s : RaceState) : RaceState :=
  if s.stPc = 0 then
    let s1 := { s with audioChunks := ([] : List (List Nat)) }
    if s1.done then { s1 with stPc := 9 } else { s1 with stPc := 1 }
  else if s.stPc = 1 then
    let ev := evaluateConversation o
    let tr := s.transcript ++ [⟨"interviewer", ev.summaryText⟩]
    { s with transcript := tr, done := true, overallScore := ev.overallScore,
             outputs := s.outputs ++
               [ServerMsg.doneMsg ev.summaryText ev.overallScore ev.rubric,
                ServerMsg.transcriptUpdate 0 tr, ServerMsg.ttsDone],
             stPc := 9 }
  else s

/-- Scheduler step: `true` advances the stop handler, `false` advances the
answer_audio_end handler. -/
def raceStep (o : Oracle) (s : RaceState) (w : Bool) : RaceState :=
  if w then stepStop o s else stepAudioEnd o s

/-- Run an interleaving schedule. -/
def runRace (o : Oracle) : RaceState → List Bool → RaceState
  | s, [] => s
  | s, w :: ws => runRace o (raceStep o s w) ws

/-- Number of `done` messages in an output list. -/
def countDone (outs : List ServerMsg) : Nat :=
  outs.countP fun m => match m with
    | ServerMsg.doneMsg _ _ _ => true
    | _ => false

/-- Initial shared state for the race: the session is registered, not
done, with both handlers at entry and nothing emitted yet. -/
def mkRace (turns maxTurns : Int) (transcript : List Utterance)
    (audioChunks : List (List Nat)) : RaceState :=
  { audioChunks := audioChunks, transcript := transcript, turns := turns,
    maxTurns := maxTurns, done := false, overallScore := 0, outputs := [],
    aePc := 0, stPc := 0 }

/-!
Async call structure of the Evaluation Aggregator.
-/

/-- The two text-generation requests issued by `evaluateConversation`. -/
inductive LlmCall where
  | rubricCall
  | summaryCall
deriving DecidableEq, Repr

/-- Issue/completion events of an upstream request. -/
inductive CallEvent where
  | issue (c : LlmCall)
  | complete (c : LlmCall)
deriving DecidableEq, Repr

/-- The possible event orders of src/server.js:845-919:
`await Promise.all([llm(rubric prompt), llm(summary prompt)])`.
Each `llm` call issues its request when invoked and completes when the
response arrives; `Promise.all` invokes both (in array order) before
awaiting, so both requests are in flight together and the completions may
arrive in either order. -/
def evalCallTraces : List (List CallEvent) :=
  [[CallEvent.issue .rubricCall, CallEvent.issue .summaryCall,
    CallEvent.complete .rubricCall, CallEvent.complete .summaryCall],
   [CallEvent.issue .rubricCall, CallEvent.issue .summaryCall,
    CallEvent.complete .summaryCall, CallEvent.complete .rubricCall]]

/-- Holds when every issue event comes before every completion event: once
a completion occurs, no further request is issued. -/
def issuesBeforeCompletes : List CallEvent → Bool
  | [] => true
  | CallEvent.issue _ :: rest => issuesBeforeCompletes rest
  | CallEvent.complete _ :: rest =>
      rest.all fun e => match e with
        | CallEvent.issue _ => false
        | CallEvent.complete _ => true

/-!
Shared helper lemmas about the registry, the output counters and runs.
-/

/-- Registry writes behave like map update: reading the written key gives
the new value, any other key is unchanged. -/
theorem lookup_setSession (s : List (Nat × SessionState)) (k : Nat)
    (v : SessionState) (j : Nat) :
    lookupSession (setSession s k v) j =
      if k = j then some v else lookupSession s j := by
  induction s with
  | nil => simp [setSession, lookupSession]
  | cons p rest ih =>
      obtain ⟨pk, pv⟩ := p
      by_cases hpk : pk = k
      · subst hpk
        simp only [setSession, if_pos rfl, lookupSession]
        by_cases hj : pk = j <;> simp [lookupSession, hj]
      · simp only [setSession, if_neg hpk, lookupSession]
        by_cases hj : pk = j
        · subst hj
          have : ¬ k = pk := fun h => hpk h.symm
          simp [this]
        · simp [hj, ih]

/-- Every binding produced by `setSession` is the new one or an old one. -/
theorem mem_setSession {s : List (Nat × SessionState)} {k : Nat}
    {v : SessionState} {p : Nat × SessionState}
    (h : p ∈ setSession s k v) : p = (k, v) ∨ p ∈ s := by
  induction s with
  | nil => simpa [setSession] using h
  | cons q rest ih =>
      obtain ⟨qk, qv⟩ := q
      by_cases hqk : qk = k
      · subst hqk
        simp only [setSession, if_pos rfl] at h
        rcases List.mem_cons.mp h with h | h
        · exact Or.inl h
        · exact Or.inr (List.mem_cons_of_mem _ h)
      · simp only [setSession, if_neg hqk] at h
        rcases List.mem_cons.mp h with h | h
        · exact Or.inr (h ▸ List.mem_cons_self _ _)
        · rcases ih h with h | h
          · exact Or.inl h
          · exact Or.inr (List.mem_cons_of_mem _ h)

/-- A successful lookup comes from a binding in the list. -/
theorem lookup_mem {s : List (Nat × SessionState)} {id : Nat}
    {st : SessionState} (h : lookupSession s id = some st) : (id, st) ∈ s := by
  induction s with
  | nil => simp [lookupSession] at h
  | cons p rest ih =>
      obtain ⟨pk, pv⟩ := p
      by_cases hpk : pk = id
      · subst hpk
        simp [lookupSession] at h
        subst h
        exact List.mem_cons_self _ _
      · simp only [lookupSession, if_neg hpk] at h
        exact List.mem_cons_of_mem _ (ih h)

/-- Well-formedness of the connection state: every registered id was
produced by the uuid counter, hence is below `nextId`. -/
def WFConn (c : ConnState) : Prop := ∀ p ∈ c.sessions, p.1 < c.nextId

instance (c : ConnState) : Decidable (WFConn c) := by
  unfold WFConn; infer_instance

/-- Under well-formedness, a registered id is below the counter. -/
theorem lookup_lt_nextId {c : ConnState} {id : Nat} {st : SessionState}
    (hwf : WFConn c) (h : lookupSession c.sessions id = some st) :
    id < c.nextId := hwf _ (lookup_mem h)

/-- Counting `done` messages distributes over appending outputs. -/
theorem countDone_append (a b : List ServerMsg) :
    countDone (a ++ b) = countDone a + countDone b :=
  List.countP_append _ _ _

/-- Unfolding of `runConn` on a cons, for rewriting. -/
theorem runConn_cons (c : ConnState) (o : Oracle) (e : ConnEvent)
    (rest : List (Oracle × ConnEvent)) :
    runConn c ((o, e) :: rest) =
      ((runConn (handleEvent o c e).1 rest).1,
       (handleEvent o c e).2 ++ (runConn (handleEvent o c e).1 rest).2) := rfl

/-- An invariant on the connection state and accumulated outputs that is
preserved by every handler step is preserved by whole runs. -/
theorem run_preserve {P : ConnState → List ServerMsg → Prop}
    (hstep : ∀ (o : Oracle) (c : ConnState) (e : ConnEvent)
        (outs : List ServerMsg),
      P c outs → P (handleEvent o c e).1 (outs ++ (handleEvent o c e).2)) :
    ∀ (evs : List (Oracle × ConnEvent)) (c : ConnState)
        (outs : List ServerMsg),
      P c outs → P (runConn c evs).1 (outs ++ (runConn c evs).2) := by
  intro evs
  induction evs with
  | nil => intro c outs h; simpa [runConn] using h
  | cons oe rest ih =>
      intro c outs h
      obtain ⟨o, e⟩ := oe
      have h2 := ih (handleEvent o c e).1 (outs ++ (handleEvent o c e).2)
        (hstep o c e outs h)
      rw [runConn_cons]
      simpa [List.append_assoc] using h2

/-!
Concrete collaborator replies and runs used by several claims below.
-/

/-- A concrete set of collaborator replies: persona "p", greeting "hello",
follow-up question "q", transcription "ans", rubric reply unparseable,
summary "bye". -/
def oracleEx : Oracle :=
  { personaText := "p", greetingText := "hello", replyText := "q",
    sttText := "ans", rubricJson := none, summaryText := "bye" }

/-- A parsed rubric whose five axes all hold 20, far outside [0,10]. -/
def badRubricJson : RubricJson :=
  { communication := some (.num 20), technical := some (.num 20),
    problem_solving := some (.num 20), behavior := some (.num 20),
    relevance := some (.num 20) }

/-- Collaborator replies whose rubric JSON parses to `badRubricJson`. -/
def oracleBad : Oracle := { oracleEx with rubricJson := some badRubricJson }

/-- A session as the `start` handler just created it (greeting "hello",
`maxTurns` 3), already marked done with score 25. -/
def doneSessionEx : SessionState :=
  { transcript := [⟨"interviewer", "hello"⟩], turns := 0, maxTurns := 3,
    done := true, overallScore := 25 }

/-- A connection whose active session is `doneSessionEx`. -/
def doneConnEx : ConnState :=
  { sessionId := some 0, audioChunks := [[1]],
    sessions := [(0, doneSessionEx)], nextId := 1 }

/-- A connection with one registered, not-yet-done session on its third
and final answer (`maxTurns` 3, two follow-ups already generated). -/
def lastTurnConnEx : ConnState :=
  { sessionId := some 0, audioChunks := [[1]],
    sessions := [(0, { transcript := [⟨"interviewer", "hello"⟩],
                       turns := 2, maxTurns := 3, done := false,
                       overallScore := 0 })],
    nextId := 1 }

/-- A connection with one registered, not-yet-done session awaiting its
first answer (`maxTurns` 3). -/
def firstTurnConnEx : ConnState :=
  { sessionId := some 0, audioChunks := [[1]],
    sessions := [(0, { transcript := [⟨"interviewer", "hello"⟩],
                       turns := 0, maxTurns := 3, done := false,
                       overallScore := 0 })],
    nextId := 1 }

/-- Start plus three complete answer cycles under `maxTurns` 3. -/
def evs3 : List (Oracle × ConnEvent) :=
  [(oracleEx, .startMsg (some 3)),
   (oracleEx, .audioStart), (oracleEx, .binaryFrame [1]), (oracleEx, .audioEnd),
   (oracleEx, .audioStart), (oracleEx, .binaryFrame [1]), (oracleEx, .audioEnd),
   (oracleEx, .audioStart), (oracleEx, .binaryFrame [1]), (oracleEx, .audioEnd)]

/-- Start plus two complete answer cycles under `maxTurns` 3. -/
def evs3a : List (Oracle × ConnEvent) :=
  [(oracleEx, .startMsg (some 3)),
   (oracleEx, .audioStart), (oracleEx, .binaryFrame [1]), (oracleEx, .audioEnd),
   (oracleEx, .audioStart), (oracleEx, .binaryFrame [1]), (oracleEx, .audioEnd)]

/-- Start, then an answer cycle with zero binary frames. -/
def evs4 : List (Oracle × ConnEvent) :=
  [(oracleEx, .startMsg (some 3)), (oracleEx, .audioStart), (oracleEx, .audioEnd)]

/-!
C2.  `overallScore` and the five rubric axes.
-/

/-- C2, counterexample.  The claim says each axis is independently clamped
into [0,10] before summing, so `overallScore` lies in [0,50].  The code
(src/server.js:951-956) sums the axes unclamped: a parsed rubric whose five
axes are all 20 reaches evaluation with `overallScore = 100`, differing
from the clamped sum 50 demanded by the spec, and the `done` message of a
full session run carries that out-of-range score. -/
theorem c2_counterexample :
    rubricTotal (parseRubric (some badRubricJson)) = 100 ∧
    specOverallScore (parseRubric (some badRubricJson)) = 50 ∧
    ¬ rubricTotal (parseRubric (some badRubricJson)) ≤ 50 ∧
    ServerMsg.doneMsg "bye" 100 (parseRubric (some badRubricJson)) ∈
      (runConn initConn [(oracleBad, .startMsg (some 1)), (oracleBad, .audioStart),
        (oracleBad, .binaryFrame [1]), (oracleBad, .audioEnd)]).2 := by
  refine ⟨by decide, by decide, by decide, ?_⟩
  decide

/-- C2, amended.  `overallScore` equals the sum of the five axis values
with each non-numeric axis coerced to 0 and no clamping applied; the
[0,50] range therefore holds exactly when every coerced axis itself lies
in [0,10]. -/
theorem c2_overallScore_sum (r : Rubric)
    (h1 : 0 ≤ numOr0 r.communication) (h2 : numOr0 r.communication ≤ 10)
    (h3 : 0 ≤ numOr0 r.technical) (h4 : numOr0 r.technical ≤ 10)
    (h5 : 0 ≤ numOr0 r.problem_solving) (h6 : numOr0 r.problem_solving ≤ 10)
    (h7 : 0 ≤ numOr0 r.behavior) (h8 : numOr0 r.behavior ≤ 10)
    (h9 : 0 ≤ numOr0 r.relevance) (h10 : numOr0 r.relevance ≤ 10) :
    rubricTotal r =
      numOr0 r.communication + numOr0 r.technical + numOr0 r.problem_solving +
        numOr0 r.behavior + numOr0 r.relevance ∧
    0 ≤ rubricTotal r ∧ rubricTotal r ≤ 50 := by
  refine ⟨rfl, ?_, ?_⟩ <;> unfold rubricTotal <;> omega

/-- C2, witness for `c2_overallScore_sum` at the default rubric. -/
theorem c2_overallScore_sum_witness :
    ((0 ≤ numOr0 defaultRubric.communication ∧ numOr0 defaultRubric.communication ≤ 10) ∧
     (0 ≤ numOr0 defaultRubric.technical ∧ numOr0 defaultRubric.technical ≤ 10) ∧
     (0 ≤ numOr0 defaultRubric.problem_solving ∧ numOr0 defaultRubric.problem_solving ≤ 10) ∧
     (0 ≤ numOr0 defaultRubric.behavior ∧ numOr0 defaultRubric.behavior ≤ 10) ∧
     (0 ≤ numOr0 defaultRubric.relevance ∧ numOr0 defaultRubric.relevance ≤ 10)) ∧
    (rubricTotal defaultRubric =
      numOr0 defaultRubric.communication + numOr0 defaultRubric.technical +
        numOr0 defaultRubric.problem_solving + numOr0 defaultRubric.behavior +
        numOr0 defaultRubric.relevance ∧
     0 ≤ rubricTotal defaultRubric ∧ rubricTotal defaultRubric ≤ 50) :=
  ⟨by decide,
   c2_overallScore_sum defaultRubric (by decide) (by decide) (by decide)
     (by decide) (by decide) (by decide) (by decide) (by decide) (by decide)
     (by decide)⟩

/-!
C10.  Rubric parse fallback and partial override.
-/

/-- C10.  When the rubric reply fails to parse, evaluation returns the
fixed defaults: every axis 5, `answer_quality` "fair", `overallScore` 25;
when it parses, only the fields present in the parsed object override the
defaults, each absent field keeps its default. -/
theorem c10_parse_fallback :
    (∀ o : Oracle, o.rubricJson = none →
      evaluateConversation o =
        { overallScore := 25, summaryText := o.summaryText,
          rubric := defaultRubric }) ∧
    ((parseRubric none).communication = JNum.num 5 ∧
     (parseRubric none).technical = JNum.num 5 ∧
     (parseRubric none).problem_solving = JNum.num 5 ∧
     (parseRubric none).behavior = JNum.num 5 ∧
     (parseRubric none).relevance = JNum.num 5 ∧
     (parseRubric none).answer_quality = "fair" ∧
     rubricTotal (parseRubric none) = 25) ∧
    (∀ j : RubricJson,
      (j.communication = none → (parseRubric (some j)).communication = JNum.num 5) ∧
      (∀ v, j.communication = some v → (parseRubric (some j)).communication = v) ∧
      (j.technical = none → (parseRubric (some j)).technical = JNum.num 5) ∧
      (∀ v, j.technical = some v → (parseRubric (some j)).technical = v) ∧
      (j.problem_solving = none → (parseRubric (some j)).problem_solving = JNum.num 5) ∧
      (∀ v, j.problem_solving = some v → (parseRubric (some j)).problem_solving = v) ∧
      (j.behavior = none → (parseRubric (some j)).behavior = JNum.num 5) ∧
      (∀ v, j.behavior = some v → (parseRubric (some j)).behavior = v) ∧
      (j.relevance = none → (parseRubric (some j)).relevance = JNum.num 5) ∧
      (∀ v, j.relevance = some v → (parseRubric (some j)).relevance = v) ∧
      (j.answer_quality = none → (parseRubric (some j)).answer_quality = "fair") ∧
      (∀ v, j.answer_quality = some v → (parseRubric (some j)).answer_quality = v)) := by
  refine ⟨?_, by decide, ?_⟩
  · intro o h
    unfold evaluateConversation
    rw [h]
    have h25 : rubricTotal defaultRubric = 25 := by decide
    simp [parseRubric, h25]
  · intro j
    refine ⟨?_, ?_, ?_, ?_, ?_, ?_, ?_, ?_, ?_, ?_, ?_, ?_⟩ <;>
      first
        | (intro h; simp [parseRubric, mergeRubric, defaultRubric, h])
        | (intro v h; simp [parseRubric, mergeRubric, defaultRubric, h])

/-- C10, witness: a rubric object carrying only `technical := 9` overrides
that one field and keeps the default 5 elsewhere, and an oracle whose
rubric reply is unparseable produces the all-default result. -/
theorem c10_parse_fallback_witness :
    (oracleEx.rubricJson = none ∧
     evaluateConversation oracleEx =
       { overallScore := 25, summaryText := oracleEx.summaryText,
         rubric := defaultRubric }) ∧
    (({ technical := some (.num 9) } : RubricJson).communication = none ∧
     (parseRubric (some ({ technical := some (.num 9) } : RubricJson))).communication =
       JNum.num 5 ∧
     (parseRubric (some ({ technical := some (.num 9) } : RubricJson))).technical =
       JNum.num 9) :=
  ⟨⟨rfl, c10_parse_fallback.1 oracleEx rfl⟩,
   ⟨rfl, (c10_parse_fallback.2.2 { technical := some (.num 9) }).1 rfl,
    (c10_parse_fallback.2.2 { technical := some (.num 9) }).2.2.2.1 (JNum.num 9) rfl⟩⟩

/-!
C6.  Concurrent issue of the two evaluation requests.
-/

/-- C6.  In every possible event order of the `Promise.all` in
`evaluateConversation`, both the rubric request and the summary request
are issued before either completes, and both are issued and joined. -/
theorem c6_concurrent_eval_calls (t : List CallEvent) (ht : t ∈ evalCallTraces) :
    issuesBeforeCompletes t = true ∧
    CallEvent.issue .rubricCall ∈ t ∧ CallEvent.issue .summaryCall ∈ t ∧
    CallEvent.complete .rubricCall ∈ t ∧ CallEvent.complete .summaryCall ∈ t := by
  simp only [evalCallTraces, List.mem_cons, List.mem_singleton,
    List.not_mem_nil, or_false] at ht
  rcases ht with h | h <;> subst h <;> exact ⟨by decide, by decide, by decide,
    by decide, by decide⟩

/-- C6, witness for `c6_concurrent_eval_calls` at the first trace. -/
theorem c6_concurrent_eval_calls_witness :
    ([CallEvent.issue .rubricCall, CallEvent.issue .summaryCall,
      CallEvent.complete .rubricCall, CallEvent.complete .summaryCall] ∈
        evalCallTraces) ∧
    issuesBeforeCompletes
      [CallEvent.issue .rubricCall, CallEvent.issue .summaryCall,
       CallEvent.complete .rubricCall, CallEvent.complete .summaryCall] = true :=
  ⟨by decide,
   (c6_concurrent_eval_calls _ (by decide)).1⟩


/-!
Characterization lemmas for the two session-mutating handlers, one per
source branch.
-/



def activeSession (c : ConnState) : Option SessionState :=
  match c.sessionId with
  | none => none
  | some sid => lookupSession c.sessions sid

theorem handleAudioEnd_no_session (o : Oracle) (c : ConnState)
    (h : activeSession c = none) :
    handleAudioEnd o c = (c, [ServerMsg.errorMsg "session_not_found"]) := by
  unfold activeSession at h
  unfold handleAudioEnd
  cases hsid : c.sessionId with
  | none => rfl
  | some sid =>
      rw [hsid] at h
      simp only at h
      simp [h]

theorem handleStop_no_session (o : Oracle) (c : ConnState)
    (h : activeSession c = none) :
    handleStop o c =
      ({ c with audioChunks := [] }, [ServerMsg.errorMsg "session_not_found"]) := by
  unfold activeSession at h
  unfold handleStop
  cases hsid : c.sessionId with
  | none => simp [hsid]
  | some sid =>
      rw [hsid] at h
      simp only at h
      simp [hsid, h]

theorem handleAudioEnd_done (o : Oracle) (c : ConnState) (sid : Nat)
    (st : SessionState) (hsid : c.sessionId = some sid)
    (hlk : lookupSession c.sessions sid = some st) (hd : st.done = true) :
    handleAudioEnd o c = (c, []) := by
  unfold handleAudioEnd
  simp [hsid, hlk, hd]

theorem handleStop_done (o : Oracle) (c : ConnState) (sid : Nat)
    (st : SessionState) (hsid : c.sessionId = some sid)
    (hlk : lookupSession c.sessions sid = some st) (hd : st.done = true) :
    handleStop o c = ({ c with audioChunks := [] }, []) := by
  unfold handleStop
  simp [hsid, hlk, hd]

theorem handleAudioEnd_empty (o : Oracle) (c : ConnState) (sid : Nat)
    (st : SessionState) (hsid : c.sessionId = some sid)
    (hlk : lookupSession c.sessions sid = some st) (hd : st.done = false)
    (hch : c.audioChunks = []) :
    handleAudioEnd o c =
      (let st2 := { st with transcript := st.transcript ++ [noAudioSentinel] }
       ({ c with sessions := setSession c.sessions sid st2 },
        [ServerMsg.transcriptUpdate sid (st.transcript ++ [noAudioSentinel])])) := by
  unfold handleAudioEnd
  simp [hsid, hlk, hd, hch]

theorem handleAudioEnd_continue (o : Oracle) (c : ConnState) (sid : Nat)
    (st : SessionState) (hsid : c.sessionId = some sid)
    (hlk : lookupSession c.sessions sid = some st) (hd : st.done = false)
    (hch : c.audioChunks ≠ [])
    (hcont : turnDecisionContinue st.turns st.maxTurns = true) :
    handleAudioEnd o c =
      (let candText := if o.sttText = "" then "(no speech recognized)" else o.sttText
       let tr1 := st.transcript ++ [⟨"candidate", candText⟩]
       let tr2 := tr1 ++ [⟨"interviewer", o.replyText⟩]
       let st2 := { st with transcript := tr2, turns := st.turns + 1 }
       ({ c with sessions := setSession c.sessions sid st2 },
        [ServerMsg.transcriptUpdate sid tr1, ServerMsg.transcriptUpdate sid tr2,
         ServerMsg.ttsDone])) := by
  unfold handleAudioEnd
  simp [hsid, hlk, hd, hch, hcont]

theorem handleAudioEnd_eval (o : Oracle) (c : ConnState) (sid : Nat)
    (st : SessionState) (hsid : c.sessionId = some sid)
    (hlk : lookupSession c.sessions sid = some st) (hd : st.done = false)
    (hch : c.audioChunks ≠ [])
    (hcont : turnDecisionContinue st.turns st.maxTurns = false) :
    handleAudioEnd o c =
      (let candText := if o.sttText = "" then "(no speech recognized)" else o.sttText
       let tr1 := st.transcript ++ [⟨"candidate", candText⟩]
       let ev := evaluateConversation o
       let tr2 := tr1 ++ [⟨"interviewer", ev.summaryText⟩]
       let st2 := { st with transcript := tr2, done := true,
                            overallScore := ev.overallScore }
       ({ c with sessions := setSession c.sessions sid st2 },
        [ServerMsg.transcriptUpdate sid tr1,
         ServerMsg.doneMsg ev.summaryText ev.overallScore ev.rubric,
         ServerMsg.transcriptUpdate sid tr2, ServerMsg.ttsDone])) := by
  unfold handleAudioEnd
  simp [hsid, hlk, hd, hch, hcont]

theorem handleStop_eval (o : Oracle) (c : ConnState) (sid : Nat)
    (st : SessionState) (hsid : c.sessionId = some sid)
    (hlk : lookupSession c.sessions sid = some st) (hd : st.done = false) :
    handleStop o c =
      (let ev := evaluateConversation o
       let tr := st.transcript ++ [⟨"interviewer", ev.summaryText⟩]
       let st2 := { st with transcript := tr, done := true,
                            overallScore := ev.overallScore }
       ({ c with audioChunks := [], sessions := setSession c.sessions sid st2 },
        [ServerMsg.doneMsg ev.summaryText ev.overallScore ev.rubric,
         ServerMsg.transcriptUpdate sid tr, ServerMsg.ttsDone])) := by
  unfold handleStop
  simp [hsid, hlk, hd]

/-!
C7.  Unknown session.
-/

/-- C7.  An `answer_audio_end` or `stop` with no resolvable session (no
prior `start` on the connection, or an id missing from the registry)
answers `session_not_found` and leaves every Session Record untouched:
the registry is unchanged, and the only state change at all is the `stop`
handler clearing the connection-local audio buffer, which is not part of
any Session Record. -/
theorem c7_session_not_found (o : Oracle) (c : ConnState)
    (h : activeSession c = none) :
    handleEvent o c .audioEnd = (c, [ServerMsg.errorMsg "session_not_found"]) ∧
    handleEvent o c .stopMsg =
      ({ c with audioChunks := [] }, [ServerMsg.errorMsg "session_not_found"]) ∧
    (handleEvent o c .audioEnd).1.sessions = c.sessions ∧
    (handleEvent o c .stopMsg).1.sessions = c.sessions := by
  have h1 := handleAudioEnd_no_session o c h
  have h2 := handleStop_no_session o c h
  exact ⟨h1, h2, by rw [show handleEvent o c .audioEnd = handleAudioEnd o c from rfl, h1],
    by rw [show handleEvent o c .stopMsg = handleStop o c from rfl, h2]⟩

/-- C7, witness for `c7_session_not_found` on a fresh connection. -/
theorem c7_session_not_found_witness :
    activeSession initConn = none ∧
    handleEvent oracleEx initConn .audioEnd =
      (initConn, [ServerMsg.errorMsg "session_not_found"]) :=
  ⟨rfl, (c7_session_not_found oracleEx initConn rfl).1⟩

/-!
C9.  Session lifetime versus connection close.
-/

/-- C9, counterexample.  The claim says the Session Record is evicted when
the connection closes; the close handler (src/server.js:1027-1029) only
logs, so after `start` followed by the close event the record is still
found in the registry. -/
theorem c9_counterexample :
    lookupSession
      (runConn initConn [(oracleEx, .startMsg (some 3)),
        (oracleEx, .closeConn)]).1.sessions 0 ≠ none := by
  decide

/-- C9, amended.  No event ever removes a Session Record from the
registry: the close handler leaves the whole connection state unchanged
and emits nothing, and every other handler at most adds or rewrites
bindings, so a registered id stays registered for the process lifetime
(there is no eviction on close and no retention window either). -/
theorem c9_no_eviction (o : Oracle) (c : ConnState) (e : ConnEvent)
    (id : Nat) (st : SessionState)
    (h : lookupSession c.sessions id = some st) :
    handleEvent o c .closeConn = (c, []) ∧
    ∃ st2, lookupSession (handleEvent o c e).1.sessions id = some st2 := by
  refine ⟨rfl, ?_⟩
  cases e with
  | startMsg m =>
      simp only [handleEvent, handleStart]
      rw [lookup_setSession]
      split
      · exact ⟨_, rfl⟩
      · exact ⟨st, h⟩
  | audioStart => exact ⟨st, h⟩
  | binaryFrame bytes => exact ⟨st, h⟩
  | invalidJson => exact ⟨st, h⟩
  | closeConn => exact ⟨st, h⟩
  | audioEnd =>
      show ∃ st2, lookupSession (handleAudioEnd o c).1.sessions id = some st2
      cases hsid : c.sessionId with
      | none =>
          rw [handleAudioEnd_no_session o c (by unfold activeSession; rw [hsid])]
          exact ⟨st, h⟩
      | some sid =>
          cases hlk : lookupSession c.sessions sid with
          | none =>
              rw [handleAudioEnd_no_session o c
                (by unfold activeSession; rw [hsid]; exact hlk)]
              exact ⟨st, h⟩
          | some stA =>
              cases hd : stA.done with
              | true =>
                  rw [handleAudioEnd_done o c sid stA hsid hlk hd]
                  exact ⟨st, h⟩
              | false =>
                  by_cases hch : c.audioChunks = []
                  · rw [handleAudioEnd_empty o c sid stA hsid hlk hd hch]
                    simp only [lookup_setSession]
                    split
                    · exact ⟨_, rfl⟩
                    · exact ⟨st, h⟩
                  · cases hcont : turnDecisionContinue stA.turns stA.maxTurns with
                    | true =>
                        rw [handleAudioEnd_continue o c sid stA hsid hlk hd hch hcont]
                        simp only [lookup_setSession]
                        split
                        · exact ⟨_, rfl⟩
                        · exact ⟨st, h⟩
                    | false =>
                        rw [handleAudioEnd_eval o c sid stA hsid hlk hd hch hcont]
                        simp only [lookup_setSession]
                        split
                        · exact ⟨_, rfl⟩
                        · exact ⟨st, h⟩
  | stopMsg =>
      show ∃ st2, lookupSession (handleStop o c).1.sessions id = some st2
      cases hsid : c.sessionId with
      | none =>
          rw [handleStop_no_session o c (by unfold activeSession; rw [hsid])]
          exact ⟨st, h⟩
      | some sid =>
          cases hlk : lookupSession c.sessions sid with
          | none =>
              rw [handleStop_no_session o c
                (by unfold activeSession; rw [hsid]; exact hlk)]
              exact ⟨st, h⟩
          | some stA =>
              cases hd : stA.done with
              | true =>
                  rw [handleStop_done o c sid stA hsid hlk hd]
                  exact ⟨st, h⟩
              | false =>
                  rw [handleStop_eval o c sid stA hsid hlk hd]
                  simp only [lookup_setSession]
                  split
                  · exact ⟨_, rfl⟩
                  · exact ⟨st, h⟩

/-- C9, witness for `c9_no_eviction`: a registered session survives the
close event. -/
theorem c9_no_eviction_witness :
    lookupSession doneConnEx.sessions 0 = some doneSessionEx ∧
    ∃ st2, lookupSession
      (handleEvent oracleEx doneConnEx .closeConn).1.sessions 0 = some st2 :=
  ⟨by decide, (c9_no_eviction oracleEx doneConnEx .closeConn 0 doneSessionEx
    (by decide)).2⟩

/-!
C5.  A done session is terminal.
-/

/-- C5, amended.  Under the serialized per-message semantics — each
handler runs to completion before the next message is processed — once a
Session Record has `done = true`, no event modifies that record again: no
utterance is appended, `done` stays true and no second evaluation starts;
and when it is the connection's active session, a further
`answer_audio_end` is a complete no-op and a further `stop` only clears
the connection-local audio buffer, neither emitting any message.  The
unqualified lifetime guarantees of the original claim fail under the real
await interleaving: see the stale write-back model after the witness
below. -/
theorem c5_done_terminal (c : ConnState) (id : Nat) (st : SessionState)
    (hwf : WFConn c) (hl : lookupSession c.sessions id = some st)
    (hd : st.done = true) :
    (∀ (o : Oracle) (e : ConnEvent),
        lookupSession (handleEvent o c e).1.sessions id = some st) ∧
    (c.sessionId = some id →
      ∀ o : Oracle,
        handleEvent o c .audioEnd = (c, []) ∧
        handleEvent o c .stopMsg = ({ c with audioChunks := [] }, [])) := by
  constructor
  · intro o e
    cases e with
    | startMsg m =>
        have hlt := lookup_lt_nextId hwf hl
        simp only [handleEvent, handleStart, lookup_setSession]
        rw [if_neg (by omega)]
        exact hl
    | audioStart => exact hl
    | binaryFrame bytes => exact hl
    | invalidJson => exact hl
    | closeConn => exact hl
    | audioEnd =>
        show lookupSession (handleAudioEnd o c).1.sessions id = some st
        cases hsid : c.sessionId with
        | none =>
            rw [handleAudioEnd_no_session o c (by unfold activeSession; rw [hsid])]
            exact hl
        | some sid =>
            cases hlk : lookupSession c.sessions sid with
            | none =>
                rw [handleAudioEnd_no_session o c
                  (by unfold activeSession; rw [hsid]; exact hlk)]
                exact hl
            | some stA =>
                cases hdA : stA.done with
                | true =>
                    rw [handleAudioEnd_done o c sid stA hsid hlk hdA]
                    exact hl
                | false =>
                    have hne : ¬ sid = id := by
                      intro hEq
                      subst hEq
                      rw [hl] at hlk
                      cases hlk
                      rw [hd] at hdA
                      cases hdA
                    by_cases hch : c.audioChunks = []
                    · rw [handleAudioEnd_empty o c sid stA hsid hlk hdA hch]
                      simp only [lookup_setSession]
                      rw [if_neg hne]
                      exact hl
                    · cases hcont : turnDecisionContinue stA.turns stA.maxTurns with
                      | true =>
                          rw [handleAudioEnd_continue o c sid stA hsid hlk hdA hch hcont]
                          simp only [lookup_setSession]
                          rw [if_neg hne]
                          exact hl
                      | false =>
                          rw [handleAudioEnd_eval o c sid stA hsid hlk hdA hch hcont]
                          simp only [lookup_setSession]
                          rw [if_neg hne]
                          exact hl
    | stopMsg =>
        show lookupSession (handleStop o c).1.sessions id = some st
        cases hsid : c.sessionId with
        | none =>
            rw [handleStop_no_session o c (by unfold activeSession; rw [hsid])]
            exact hl
        | some sid =>
            cases hlk : lookupSession c.sessions sid with
            | none =>
                rw [handleStop_no_session o c
                  (by unfold activeSession; rw [hsid]; exact hlk)]
                exact hl
            | some stA =>
                cases hdA : stA.done with
                | true =>
                    rw [handleStop_done o c sid stA hsid hlk hdA]
                    exact hl
                | false =>
                    have hne : ¬ sid = id := by
                      intro hEq
                      subst hEq
                      rw [hl] at hlk
                      cases hlk
                      rw [hd] at hdA
                      cases hdA
                    rw [handleStop_eval o c sid stA hsid hlk hdA]
                    simp only [lookup_setSession]
                    rw [if_neg hne]
                    exact hl
  · intro hsid o
    exact ⟨handleAudioEnd_done o c id st hsid hl hd,
           handleStop_done o c id st hsid hl hd⟩

/-- C5, witness for `c5_done_terminal` on a connection whose active
session is done. -/
theorem c5_done_terminal_witness :
    (WFConn doneConnEx ∧
     lookupSession doneConnEx.sessions 0 = some doneSessionEx ∧
     doneSessionEx.done = true) ∧
    handleEvent oracleEx doneConnEx .audioEnd = (doneConnEx, []) :=
  ⟨⟨by decide, by decide, by decide⟩,
   ((c5_done_terminal doneConnEx 0 doneSessionEx (by decide) (by decide)
      (by decide)).2 rfl oracleEx).1⟩

/-!
Stale write-back model of the stop / answer_audio_end interleaving.

`normalizeState` (src/server.js:251-295) returns a fresh object whose
scalar fields (`done`, `turns`, `overallScore`) are copies of the
registry record, while the `transcript` array is the same shared array;
`SESSIONS.set` (src/server.js:1376, 1400, 1445) replaces the registry
binding with the handler's copy wholesale.  The model below therefore
tracks the registry scalars (`regDone`, `regTurns`) separately from each
handler's local copy (`aeDone`/`aeTurns`, `stDone`/`stTurns`), with one
shared transcript, split at the same `await` points as the coarser model
above.  The coarser model is exact on the schedules its theorems
quantify over — there the audio-end handler never reaches the
continue-branch write-back segment — but only this refinement makes the
stale `SESSIONS.set` of src/server.js:1376 observable: a copy fetched
while `done` was still false is written back over a registry record that
a concurrent `stop` has meanwhile marked done.  Program counters as in
the coarser model; `regScore` is clobbered by the same write-back and is
elided.
-/

/-- Shared state of the write-back model: registry scalars, each
handler's local copy of them, the shared transcript array, the
connection buffer, outputs and program counters. -/
structure WbState where
  audioChunks : List (List Nat)
  transcript : List Utterance
  regDone : Bool
  regTurns : Int
  maxTurns : Int
  aeDone : Bool
  aeTurns : Int
  stDone : Bool
  stTurns : Int
  outputs : List ServerMsg
  aePc : Nat
  stPc : Nat
deriving DecidableEq, Repr

/-- One segment of the `answer_audio_end` handler with per-copy scalars
(src/server.js:1274-1426).  Segment 0: entry copy + done guard +
empty-buffer branch.  Segment 1 (after transcription): candidate push,
update, the re-fetch of src/server.js:1362 (a fresh copy of the registry
scalars), done re-check and turn decision.  Segment 2 (after question
generation): reply push, increment of the copy's `turns`, and the
`SESSIONS.set` of src/server.js:1376, which installs the copy's scalars
— including its possibly stale `done = false` — as the registry record.
Segment 4: turn TTS done.  Segment 3 (after `evaluateConversation`):
summary push, `done := true` on the copy, `SESSIONS.set`, `done`
message, update, TTS marker. -/
def wbStepAudioEnd (o : Oracle) (s : WbState) : WbState :=
  if s.aePc = 0 then
    let s1 := { s with aeDone := s.regDone, aeTurns := s.regTurns }
    if s1.aeDone then { s1 with aePc := 9 }
    else if s1.audioChunks = [] then
      let tr := s1.transcript ++ [noAudioSentinel]
      { s1 with transcript := tr,
                outputs := s1.outputs ++ [ServerMsg.transcriptUpdate 0 tr],
                aePc := 9 }
    else { s1 with aePc := 1 }
  else if s.aePc = 1 then
    let candText := if o.sttText = "" then "(no speech recognized)" else o.sttText
    let tr1 := s.transcript ++ [⟨"candidate", candText⟩]
    let s1 := { s with transcript := tr1,
                       outputs := s.outputs ++ [ServerMsg.transcriptUpdate 0 tr1],
                       aeDone := s.regDone, aeTurns := s.regTurns }
    if s1.aeDone then { s1 with aePc := 9 }
    else if turnDecisionContinue s1.aeTurns s1.maxTurns && !s1.aeDone then
      { s1 with aePc := 2 }
    else { s1 with aePc := 3 }
  else if s.aePc = 2 then
    let tr2 := s.transcript ++ [⟨"interviewer", o.replyText⟩]
    let s1 := { s with transcript := tr2, aeTurns := s.aeTurns + 1 }
    { s1 with regDone := s1.aeDone, regTurns := s1.aeTurns,
              outputs := s1.outputs ++ [ServerMsg.transcriptUpdate 0 tr2],
              aePc := 4 }
  else if s.aePc = 4 then
    { s with outputs := s.outputs ++ [ServerMsg.ttsDone], aePc := 9 }
  else if s.aePc = 3 then
    let ev := evaluateConversation o
    let tr2 := s.transcript ++ [⟨"interviewer", ev.summaryText⟩]
    let s1 := { s with transcript := tr2, aeDone := true }
    { s1 with regDone := true, regTurns := s1.aeTurns,
              outputs := s1.outputs ++
                [ServerMsg.doneMsg ev.summaryText ev.overallScore ev.rubric,
                 ServerMsg.transcriptUpdate 0 tr2, ServerMsg.ttsDone],
              aePc := 9 }
  else s

/-- One segment of the `stop` handler with per-copy scalars
(src/server.js:1429-1470).  Segment 0: clear the buffer, copy the
registry scalars, done guard.  Segment 1 (after `evaluateConversation`):
`done := true` on the copy, summary push, `SESSIONS.set`, `done`
message, update, TTS marker. -/
def wbStepStop (o : Oracle) (s : WbState) : WbState :=
  if s.stPc = 0 then
    let s1 := { s with audioChunks := ([] : List (List Nat)),
                       stDone := s.regDone, stTurns := s.regTurns }
    if s1.stDone then { s1 with stPc := 9 } else { s1 with stPc := 1 }
  else if s.stPc = 1 then
    let ev := evaluateConversation o
    let tr := s.transcript ++ [⟨"interviewer", ev.summaryText⟩]
    let s1 := { s with transcript := tr, stDone := true }
    { s1 with regDone := true, regTurns := s1.stTurns,
              outputs := s1.outputs ++
                [ServerMsg.doneMsg ev.summaryText ev.overallScore ev.rubric,
                 ServerMsg.transcriptUpdate 0 tr, ServerMsg.ttsDone],
              stPc := 9 }
  else s

/-- Scheduler step of the write-back model: `true` advances the stop
handler, `false` the answer_audio_end handler. -/
def wbStep (o : Oracle) (s : WbState) (w : Bool) : WbState :=
  if w then wbStepStop o s else wbStepAudioEnd o s

/-- Run an interleaving schedule of the write-back model. -/
def runWb (o : Oracle) : WbState → List Bool → WbState
  | s, [] => s
  | s, w :: ws => runWb o (wbStep o s w) ws

/-- Initial write-back state: one registered, not-yet-done session, both
handlers at entry, nothing emitted. -/
def mkWb (regTurns maxTurns : Int) (transcript : List Utterance)
    (audioChunks : List (List Nat)) : WbState :=
  { audioChunks := audioChunks, transcript := transcript,
    regDone := false, regTurns := regTurns, maxTurns := maxTurns,
    aeDone := false, aeTurns := 0, stDone := false, stTurns := 0,
    outputs := [], aePc := 0, stPc := 0 }

/-- C5, counterexample.  The lifetime guarantees of the claim fail under
the await interleaving.  First trace (`maxTurns` 3, continue branch): the
audio-end handler copies the record while `done` is still false and
suspends awaiting the next question; `stop` then evaluates and sets the
registry record done; when the audio-end handler resumes, the
`SESSIONS.set` of src/server.js:1376 writes its stale copy back and the
registry's `done` transitions from true back to false.  Second trace
(`maxTurns` 1, evaluation branch): after the record has `done = true`
with exactly one `done` message emitted, the suspended `stop` handler
still completes its own evaluation — a second `done` message, a second
Rubric Result, and a further utterance appended to the same record's
transcript. -/
theorem c5_counterexample :
    (runWb oracleEx (mkWb 0 3 [⟨"interviewer", "hello"⟩] [[1]])
        [false, false, true, true]).regDone = true ∧
    (runWb oracleEx (mkWb 0 3 [⟨"interviewer", "hello"⟩] [[1]])
        [false, false, true, true, false]).regDone = false ∧
    (runWb oracleEx (mkWb 0 1 [⟨"interviewer", "hello"⟩] [[1]])
        [false, false, true, false]).regDone = true ∧
    countDone (runWb oracleEx (mkWb 0 1 [⟨"interviewer", "hello"⟩] [[1]])
        [false, false, true, false]).outputs = 1 ∧
    countDone (runWb oracleEx (mkWb 0 1 [⟨"interviewer", "hello"⟩] [[1]])
        [false, false, true, false, true]).outputs = 2 ∧
    (runWb oracleEx (mkWb 0 1 [⟨"interviewer", "hello"⟩] [[1]])
        [false, false, true, false, true]).transcript.length =
      (runWb oracleEx (mkWb 0 1 [⟨"interviewer", "hello"⟩] [[1]])
        [false, false, true, false]).transcript.length + 1 := by
  exact ⟨by decide, by decide, by decide, by decide, by decide, by decide⟩

/-!
C3.  The turn decision.
-/

/-- Every registered, not-yet-done session with a meaningful turn budget
(`maxTurns` at least 1) has completed at most `maxTurns - 1` interviewer
follow-up turns. -/
def sessionTurnsOk (c : ConnState) : Prop :=
  ∀ id st, lookupSession c.sessions id = some st →
    st.done = false → 1 ≤ st.maxTurns → st.turns ≤ st.maxTurns - 1

/-- The turns bound is preserved by every handler step: `turns` is only
ever incremented under the guard `turns < maxTurns - 1`. -/
theorem sessionTurnsOk_step (o : Oracle) (c : ConnState) (e : ConnEvent)
    (h : sessionTurnsOk c) : sessionTurnsOk (handleEvent o c e).1 := by
  cases e with
  | startMsg m =>
      intro id st hlk hdone hmax
      simp only [handleEvent, handleStart, lookup_setSession] at hlk
      split at hlk
      · cases hlk
        dsimp only at hmax ⊢
        omega
      · exact h id st hlk hdone hmax
  | audioStart => exact h
  | binaryFrame bytes => exact h
  | invalidJson => exact h
  | closeConn => exact h
  | audioEnd =>
      show sessionTurnsOk (handleAudioEnd o c).1
      cases hsid : c.sessionId with
      | none =>
          rw [handleAudioEnd_no_session o c (by unfold activeSession; rw [hsid])]
          exact h
      | some sid =>
          cases hlk : lookupSession c.sessions sid with
          | none =>
              rw [handleAudioEnd_no_session o c
                (by unfold activeSession; rw [hsid]; exact hlk)]
              exact h
          | some stA =>
              cases hdA : stA.done with
              | true =>
                  rw [handleAudioEnd_done o c sid stA hsid hlk hdA]
                  exact h
              | false =>
                  by_cases hch : c.audioChunks = []
                  · rw [handleAudioEnd_empty o c sid stA hsid hlk hdA hch]
                    intro id st hlk2 hdone hmax
                    simp only [lookup_setSession] at hlk2
                    split at hlk2
                    · cases hlk2
                      exact h sid stA hlk hdA hmax
                    · exact h id st hlk2 hdone hmax
                  · cases hcont : turnDecisionContinue stA.turns stA.maxTurns with
                    | true =>
                        rw [handleAudioEnd_continue o c sid stA hsid hlk hdA hch hcont]
                        intro id st hlk2 hdone hmax
                        simp only [lookup_setSession] at hlk2
                        split at hlk2
                        · cases hlk2
                          dsimp only at hmax ⊢
                          simp only [turnDecisionContinue,
                            decide_eq_true_eq] at hcont
                          omega
                        · exact h id st hlk2 hdone hmax
                    | false =>
                        rw [handleAudioEnd_eval o c sid stA hsid hlk hdA hch hcont]
                        intro id st hlk2 hdone hmax
                        simp only [lookup_setSession] at hlk2
                        split at hlk2
                        · cases hlk2
                          cases hdone
                        · exact h id st hlk2 hdone hmax
  | stopMsg =>
      show sessionTurnsOk (handleStop o c).1
      cases hsid : c.sessionId with
      | none =>
          rw [handleStop_no_session o c (by unfold activeSession; rw [hsid])]
          exact h
      | some sid =>
          cases hlk : lookupSession c.sessions sid with
          | none =>
              rw [handleStop_no_session o c
                (by unfold activeSession; rw [hsid]; exact hlk)]
              exact h
          | some stA =>
              cases hdA : stA.done with
              | true =>
                  rw [handleStop_done o c sid stA hsid hlk hdA]
                  exact h
              | false =>
                  rw [handleStop_eval o c sid stA hsid hlk hdA]
                  intro id st hlk2 hdone hmax
                  simp only [lookup_setSession] at hlk2
                  split at hlk2
                  · cases hlk2
                    cases hdone
                  · exact h id st hlk2 hdone hmax

/-- C3.  The turn decision after a non-empty answer is exactly the pure
predicate `turns < maxTurns - 1` (src/server.js:1372): below the bound the
handler appends a follow-up question, increments `turns` and emits no
`done` message; at the bound it evaluates, sets `done` and emits exactly
one `done` message.  Consequently `turns` never exceeds `maxTurns - 1` on
a live session in any run, and with `maxTurns = 3` a full session
generates exactly 2 follow-up turns, is still live after 2 answers, and
evaluation fires on the 3rd `answer_audio_end`. -/
theorem c3_turn_decision :
    (∀ (o : Oracle) (c : ConnState) (sid : Nat) (st : SessionState),
      c.sessionId = some sid → lookupSession c.sessions sid = some st →
      st.done = false → c.audioChunks ≠ [] →
      ((st.turns < st.maxTurns - 1 →
          ∃ st2, lookupSession (handleEvent o c .audioEnd).1.sessions sid = some st2 ∧
            st2.turns = st.turns + 1 ∧ st2.done = false ∧
            countDone (handleEvent o c .audioEnd).2 = 0) ∧
       (¬ st.turns < st.maxTurns - 1 →
          ∃ st2, lookupSession (handleEvent o c .audioEnd).1.sessions sid = some st2 ∧
            st2.turns = st.turns ∧ st2.done = true ∧
            countDone (handleEvent o c .audioEnd).2 = 1))) ∧
    (∀ evs : List (Oracle × ConnEvent), sessionTurnsOk (runConn initConn evs).1) ∧
    ((lookupSession (runConn initConn evs3).1.sessions 0).map SessionState.turns =
        some 2 ∧
     (lookupSession (runConn initConn evs3).1.sessions 0).map SessionState.done =
        some true ∧
     countDone (runConn initConn evs3).2 = 1 ∧
     (lookupSession (runConn initConn evs3a).1.sessions 0).map SessionState.done =
        some false ∧
     countDone (runConn initConn evs3a).2 = 0) := by
  refine ⟨?_, ?_, ?_⟩
  · intro o c sid st hsid hlk hdone hch
    constructor
    · intro hlt
      have hcont : turnDecisionContinue st.turns st.maxTurns = true := by
        simp only [turnDecisionContinue, decide_eq_true_eq]
        exact hlt
      show ∃ st2, lookupSession (handleAudioEnd o c).1.sessions sid = some st2 ∧
        st2.turns = st.turns + 1 ∧ st2.done = false ∧
        countDone (handleAudioEnd o c).2 = 0
      rw [handleAudioEnd_continue o c sid st hsid hlk hdone hch hcont]
      refine ⟨{ st with
          transcript := st.transcript ++
            [⟨"candidate", if o.sttText = "" then "(no speech recognized)" else o.sttText⟩] ++
            [⟨"interviewer", o.replyText⟩],
          turns := st.turns + 1 }, ?_, rfl, hdone, ?_⟩
      · simp [lookup_setSession]
      · simp [countDone, List.countP_cons]
    · intro hge
      have hcont : turnDecisionContinue st.turns st.maxTurns = false := by
        simp only [turnDecisionContinue, decide_eq_false_iff_not]
        exact hge
      show ∃ st2, lookupSession (handleAudioEnd o c).1.sessions sid = some st2 ∧
        st2.turns = st.turns ∧ st2.done = true ∧
        countDone (handleAudioEnd o c).2 = 1
      rw [handleAudioEnd_eval o c sid st hsid hlk hdone hch hcont]
      refine ⟨{ st with
          transcript := st.transcript ++
            [⟨"candidate", if o.sttText = "" then "(no speech recognized)" else o.sttText⟩] ++
            [⟨"interviewer", (evaluateConversation o).summaryText⟩],
          done := true,
          overallScore := (evaluateConversation o).overallScore }, ?_, rfl, rfl, ?_⟩
      · simp [lookup_setSession]
      · simp [countDone, List.countP_cons]
  · intro evs
    have h0 : sessionTurnsOk initConn := by
      intro id st hlk
      simp [initConn, lookupSession] at hlk
    exact run_preserve (P := fun c _ => sessionTurnsOk c)
      (fun o c e outs hh => sessionTurnsOk_step o c e hh) evs initConn [] h0
  · exact ⟨by decide, by decide, by decide, by decide, by decide⟩

/-- C3, witness for `c3_turn_decision` on the first answer of a
`maxTurns = 3` session: the continue branch fires. -/
theorem c3_turn_decision_witness :
    (firstTurnConnEx.sessionId = some 0 ∧
     (lookupSession firstTurnConnEx.sessions 0).map SessionState.turns = some 0 ∧
     firstTurnConnEx.audioChunks ≠ []) ∧
    ∃ st2, lookupSession
        (handleEvent oracleEx firstTurnConnEx .audioEnd).1.sessions 0 = some st2 ∧
      st2.turns = 0 + 1 ∧ st2.done = false ∧
      countDone (handleEvent oracleEx firstTurnConnEx .audioEnd).2 = 0 :=
  ⟨⟨rfl, by decide, by decide⟩,
   ((c3_turn_decision.1 oracleEx firstTurnConnEx 0
      { transcript := [⟨"interviewer", "hello"⟩], turns := 0, maxTurns := 3,
        done := false, overallScore := 0 }
      rfl (by decide) rfl (by decide)).1 (by decide))⟩

/-!
C4.  Zero audio frames before the end marker.
-/

/-- C4, counterexample.  The claim says that after a zero-frame
`answer_audio_end` the Turn Controller still advances (next question or
evaluation).  The empty-buffer branch (src/server.js:1288-1296) instead
returns early: after `start` (`maxTurns` 3), `answer_audio_start` and an
immediate `answer_audio_end`, the sentinel is appended but no follow-up
question is generated, no evaluation runs, and the session is left
waiting for further input. -/
theorem c4_counterexample :
    (lookupSession (runConn initConn evs4).1.sessions 0).map
        SessionState.transcript =
      some [⟨"interviewer", "hello"⟩, noAudioSentinel] ∧
    (lookupSession (runConn initConn evs4).1.sessions 0).map
        SessionState.turns = some 0 ∧
    (lookupSession (runConn initConn evs4).1.sessions 0).map
        SessionState.done = some false ∧
    countDone (runConn initConn evs4).2 = 0 ∧
    (handleEvent oracleEx (runConn initConn
        [(oracleEx, .startMsg (some 3)), (oracleEx, .audioStart)]).1
        .audioEnd).2 =
      [ServerMsg.transcriptUpdate 0 [⟨"interviewer", "hello"⟩, noAudioSentinel]] := by
  exact ⟨by decide, by decide, by decide, by decide, by decide⟩

/-- C4, amended.  A zero-frame `answer_audio_end` on a live session
appends exactly the fixed sentinel utterance "(no audio received)" and
emits the matching `transcript_update`, but the Turn Controller does not
advance: `turns` and `done` are unchanged, no follow-up question is
appended, and no evaluation is triggered — the session waits for further
input. -/
theorem c4_empty_buffer_sentinel (o : Oracle) (c : ConnState) (sid : Nat)
    (st : SessionState) (hsid : c.sessionId = some sid)
    (hlk : lookupSession c.sessions sid = some st) (hdone : st.done = false)
    (hch : c.audioChunks = []) :
    (handleEvent o c .audioEnd).2 =
      [ServerMsg.transcriptUpdate sid (st.transcript ++ [noAudioSentinel])] ∧
    lookupSession (handleEvent o c .audioEnd).1.sessions sid =
      some ({ st with transcript := st.transcript ++ [noAudioSentinel] }) ∧
    (∀ st2, lookupSession (handleEvent o c .audioEnd).1.sessions sid = some st2 →
      st2.turns = st.turns ∧ st2.done = false ∧
      st2.transcript = st.transcript ++ [noAudioSentinel]) ∧
    countDone (handleEvent o c .audioEnd).2 = 0 := by
  have heq := handleAudioEnd_empty o c sid st hsid hlk hdone hch
  have h1 : (handleEvent o c .audioEnd).2 =
      [ServerMsg.transcriptUpdate sid (st.transcript ++ [noAudioSentinel])] := by
    show (handleAudioEnd o c).2 = _
    rw [heq]
  have h2 : lookupSession (handleEvent o c .audioEnd).1.sessions sid =
      some ({ st with transcript := st.transcript ++ [noAudioSentinel] }) := by
    show lookupSession (handleAudioEnd o c).1.sessions sid = _
    rw [heq]
    simp [lookup_setSession]
  refine ⟨h1, h2, ?_, ?_⟩
  · intro st2 hst2
    rw [h2] at hst2
    cases hst2
    exact ⟨rfl, hdone, rfl⟩
  · rw [h1]
    simp [countDone, List.countP_cons]

/-- C4, witness for `c4_empty_buffer_sentinel` on a live first-turn
session whose audio buffer is empty. -/
theorem c4_empty_buffer_sentinel_witness :
    (({ firstTurnConnEx with audioChunks := [] } : ConnState).audioChunks = [] ∧
     lookupSession ({ firstTurnConnEx with audioChunks := [] } : ConnState).sessions 0 =
       some { transcript := [⟨"interviewer", "hello"⟩], turns := 0, maxTurns := 3,
              done := false, overallScore := 0 }) ∧
    (handleEvent oracleEx ({ firstTurnConnEx with audioChunks := [] }) .audioEnd).2 =
      [ServerMsg.transcriptUpdate 0
        ([⟨"interviewer", "hello"⟩] ++ [noAudioSentinel])] :=
  ⟨⟨rfl, by decide⟩,
   (c4_empty_buffer_sentinel oracleEx ({ firstTurnConnEx with audioChunks := [] }) 0
      { transcript := [⟨"interviewer", "hello"⟩], turns := 0, maxTurns := 3,
        done := false, overallScore := 0 }
      rfl (by decide) rfl rfl).1⟩

/-!
C1.  The stop / answer_audio_end race.
-/

/-- Invariant holding from the moment the stop handler has run its
synchronous prefix before the audio-end handler has started: the buffer
is cleared, the audio-end handler can only be at entry or finished (the
cleared buffer sends it down the sentinel early return), and the stop
handler is either still pending its evaluation (no `done` emitted) or has
finished (exactly one `done` emitted). -/
def RaceInv (s : RaceState) : Prop :=
  s.audioChunks = [] ∧ (s.aePc = 0 ∨ s.aePc = 9) ∧
  ((s.stPc = 1 ∧ s.done = false ∧ countDone s.outputs = 0) ∨
   (s.stPc = 9 ∧ s.done = true ∧ countDone s.outputs = 1))


/-- Segment characterization: a finished stop handler takes no step. -/
theorem stepStop_pc9 (o : Oracle) (s : RaceState) (h : s.stPc = 9) :
    stepStop o s = s := by
  unfold stepStop
  rw [h]
  simp

/-- Segment characterization: the stop prefix on a live session clears
the buffer and suspends at the evaluation await. -/
theorem stepStop_pc0_live (o : Oracle) (s : RaceState) (h : s.stPc = 0)
    (hd : s.done = false) :
    stepStop o s = { s with audioChunks := [], stPc := 1 } := by
  unfold stepStop
  rw [h]
  simp [hd]

/-- Segment characterization: the stop handler resuming from its
evaluation await sets `done`, emits the `done` message, the update and
the TTS marker, and finishes. -/
theorem stepStop_pc1 (o : Oracle) (s : RaceState) (h : s.stPc = 1) :
    stepStop o s =
      (let ev := evaluateConversation o
       let tr := s.transcript ++ [⟨"interviewer", ev.summaryText⟩]
       { s with transcript := tr, done := true, overallScore := ev.overallScore,
                outputs := s.outputs ++
                  [ServerMsg.doneMsg ev.summaryText ev.overallScore ev.rubric,
                   ServerMsg.transcriptUpdate 0 tr, ServerMsg.ttsDone],
                stPc := 9 }) := by
  unfold stepStop
  rw [h]
  simp

/-- Segment characterization: a finished audio-end handler takes no
step. -/
theorem stepAudioEnd_pc9 (o : Oracle) (s : RaceState) (h : s.aePc = 9) :
    stepAudioEnd o s = s := by
  unfold stepAudioEnd
  rw [h]
  simp

/-- Segment characterization: the audio-end entry guard on a done session
finishes immediately. -/
theorem stepAudioEnd_pc0_done (o : Oracle) (s : RaceState) (h : s.aePc = 0)
    (hd : s.done = true) :
    stepAudioEnd o s = { s with aePc := 9 } := by
  unfold stepAudioEnd
  rw [h]
  simp [hd]

/-- Segment characterization: the audio-end entry on a live session with
an empty buffer appends the sentinel, emits the update and finishes. -/
theorem stepAudioEnd_pc0_empty (o : Oracle) (s : RaceState) (h : s.aePc = 0)
    (hd : s.done = false) (hch : s.audioChunks = []) :
    stepAudioEnd o s =
      { s with transcript := s.transcript ++ [noAudioSentinel],
               outputs := s.outputs ++
                 [ServerMsg.transcriptUpdate 0 (s.transcript ++ [noAudioSentinel])],
               aePc := 9 } := by
  unfold stepAudioEnd
  rw [h]
  simp [hd, hch]

/-- The race invariant is preserved by either handler taking a step. -/
theorem raceInv_step (o : Oracle) (s : RaceState) (w : Bool)
    (h : RaceInv s) : RaceInv (raceStep o s w) := by
  obtain ⟨hch, hae, hst⟩ := h
  cases w with
  | true =>
      show RaceInv (stepStop o s)
      rcases hst with ⟨h1, hd, hc⟩ | ⟨h1, hd, hc⟩
      · rw [stepStop_pc1 o s h1]
        refine ⟨hch, hae, Or.inr ⟨rfl, rfl, ?_⟩⟩
        show countDone (s.outputs ++ _) = 1
        rw [countDone_append, hc]
        rfl
      · rw [stepStop_pc9 o s h1]
        exact ⟨hch, hae, Or.inr ⟨h1, hd, hc⟩⟩
  | false =>
      show RaceInv (stepAudioEnd o s)
      rcases hae with h0 | h9
      · rcases hst with ⟨h1, hd, hc⟩ | ⟨h1, hd, hc⟩
        · rw [stepAudioEnd_pc0_empty o s h0 hd hch]
          refine ⟨hch, Or.inr rfl, Or.inl ⟨h1, hd, ?_⟩⟩
          show countDone (s.outputs ++ _) = 0
          rw [countDone_append, hc]
          rfl
        · rw [stepAudioEnd_pc0_done o s h0 hd]
          exact ⟨hch, Or.inr rfl, Or.inr ⟨h1, hd, hc⟩⟩
      · rw [stepAudioEnd_pc9 o s h9]
        exact ⟨hch, Or.inr h9, hst⟩

/-- The race invariant is preserved by any schedule. -/
theorem raceInv_run (o : Oracle) (sched : List Bool) :
    ∀ s : RaceState, RaceInv s → RaceInv (runRace o s sched) := by
  induction sched with
  | nil => intro s h; exact h
  | cons w ws ih =>
      intro s h
      exact ih (raceStep o s w) (raceInv_step o s w h)

/-- C1, counterexample.  The claim says every interleaving in which both
termination paths become eligible yields exactly one `done` message,
because the winner claims the `done` transition before running the
Evaluation Aggregator.  In the code `done` is only set after the
aggregator returns: on a session at its final answer, the schedule in
which the audio-end handler reaches its evaluation await and the stop
handler then runs its guard produces two `done` messages (and two rubric
results). -/
theorem c1_counterexample :
    countDone (runRace oracleEx
        (mkRace 0 1 [⟨"interviewer", "hello"⟩] [[1]])
        [false, false, true, false, true]).outputs = 2 ∧
    ¬ (∀ sched : List Bool,
        countDone (runRace oracleEx
          (mkRace 0 1 [⟨"interviewer", "hello"⟩] [[1]]) sched).outputs ≤ 1) :=
  ⟨by decide, fun h => absurd (h [false, false, true, false, true]) (by decide)⟩

/-- C1, amended.  When the stop handler runs first — its synchronous
prefix clears the audio buffer before its first await — every subsequent
interleaving emits at most one `done` message: the audio-end handler
falls into the empty-buffer sentinel branch (an append, not a pure no-op)
and never evaluates; the canonical complete schedule emits exactly one
`done` and appends the sentinel.  (In the reverse order the exactly-once
guarantee fails, see the counterexample.) -/
theorem c1_stop_first_exactly_once :
    (∀ (o : Oracle) (turns maxTurns : Int) (tr : List Utterance)
        (chunks : List (List Nat)) (sched : List Bool),
      countDone (runRace o (mkRace turns maxTurns tr chunks)
        (true :: sched)).outputs ≤ 1) ∧
    countDone (runRace oracleEx
        (mkRace 0 1 [⟨"interviewer", "hello"⟩] [[1]])
        [true, false, true]).outputs = 1 ∧
    noAudioSentinel ∈ (runRace oracleEx
        (mkRace 0 1 [⟨"interviewer", "hello"⟩] [[1]])
        [true, false, true]).transcript := by
  refine ⟨?_, by decide, by decide⟩
  intro o turns maxTurns tr chunks sched
  have hstep : runRace o (mkRace turns maxTurns tr chunks) (true :: sched) =
      runRace o (raceStep o (mkRace turns maxTurns tr chunks) true) sched := rfl
  have hinv1 : RaceInv (raceStep o (mkRace turns maxTurns tr chunks) true) := by
    have he : raceStep o (mkRace turns maxTurns tr chunks) true =
        stepStop o (mkRace turns maxTurns tr chunks) := rfl
    rw [he, stepStop_pc0_live o (mkRace turns maxTurns tr chunks) rfl rfl]
    exact ⟨rfl, Or.inl rfl, Or.inl ⟨rfl, rfl, rfl⟩⟩
  have hinv := raceInv_run o sched _ hinv1
  rw [hstep]
  rcases hinv.2.2 with ⟨_, _, hc⟩ | ⟨_, _, hc⟩
  · omega
  · omega

/-!
C8.  Transcript updates are strictly growing.
-/

/-- The transcripts carried by the `transcript_update` messages for one
session, in emission order. -/
def updatesFor (id : Nat) : List ServerMsg → List (List Utterance)
  | [] => []
  | ServerMsg.transcriptUpdate sid tr :: rest =>
      if sid = id then tr :: updatesFor id rest else updatesFor id rest
  | ServerMsg.session _ :: rest => updatesFor id rest
  | ServerMsg.persona _ :: rest => updatesFor id rest
  | ServerMsg.ttsDone :: rest => updatesFor id rest
  | ServerMsg.doneMsg _ _ _ :: rest => updatesFor id rest
  | ServerMsg.errorMsg _ :: rest => updatesFor id rest

/-- `updatesFor` distributes over appending outputs. -/
theorem updatesFor_append (id : Nat) (a b : List ServerMsg) :
    updatesFor id (a ++ b) = updatesFor id a ++ updatesFor id b := by
  induction a with
  | nil => rfl
  | cons m rest ih =>
      cases m with
      | transcriptUpdate sid tr =>
          simp only [List.cons_append, updatesFor]
          split
          · simp [ih]
          · exact ih
      | session sid => simpa [updatesFor] using ih
      | persona t => simpa [updatesFor] using ih
      | ttsDone => simpa [updatesFor] using ih
      | doneMsg a b r => simpa [updatesFor] using ih
      | errorMsg e => simpa [updatesFor] using ih

/-- One transcript strictly extends another: the first is a strict prefix
of the second. -/
def StrictGrows (a b : List Utterance) : Prop := ∃ t, t ≠ [] ∧ b = a ++ t

/-- Strict extension is transitive. -/
theorem strictGrows_trans {a b c : List Utterance}
    (h1 : StrictGrows a b) (h2 : StrictGrows b c) : StrictGrows a c := by
  obtain ⟨t1, hne1, rfl⟩ := h1
  obtain ⟨t2, hne2, rfl⟩ := h2
  exact ⟨t1 ++ t2, fun hEq => hne1 (List.append_eq_nil.mp hEq).1,
    List.append_assoc a t1 t2⟩

/-- Appending a non-empty tail strictly extends. -/
theorem strictGrows_append (a t : List Utterance) (ht : t ≠ []) :
    StrictGrows a (a ++ t) := ⟨t, ht, rfl⟩

/-- Extending a strictly growing chain that sits below `tr` by one element
strictly above `tr` keeps it a chain sitting below the new element. -/
theorem c8_extend1 {old : List (List Utterance)} {tr tr2 : List Utterance}
    (hold : old.Pairwise StrictGrows)
    (hbelow : ∀ u ∈ old, StrictGrows u tr ∨ u = tr)
    (hg : StrictGrows tr tr2) :
    (old ++ [tr2]).Pairwise StrictGrows ∧
    ∀ u ∈ old ++ [tr2], StrictGrows u tr2 ∨ u = tr2 := by
  constructor
  · rw [List.pairwise_append]
    refine ⟨hold, List.pairwise_singleton _ _, ?_⟩
    intro a ha b hb
    rw [List.mem_singleton] at hb
    subst hb
    rcases hbelow a ha with h | h
    · exact strictGrows_trans h hg
    · rw [h]; exact hg
  · intro u hu
    rcases List.mem_append.mp hu with h | h
    · rcases hbelow u h with h2 | h2
      · exact Or.inl (strictGrows_trans h2 hg)
      · rw [h2]; exact Or.inl hg
    · rw [List.mem_singleton] at h
      exact Or.inr h

/-- Two-step extension of a chain sitting below `tr`. -/
theorem c8_extend2 {old : List (List Utterance)} {tr tr1 tr2 : List Utterance}
    (hold : old.Pairwise StrictGrows)
    (hbelow : ∀ u ∈ old, StrictGrows u tr ∨ u = tr)
    (hg1 : StrictGrows tr tr1) (hg2 : StrictGrows tr1 tr2) :
    (old ++ [tr1, tr2]).Pairwise StrictGrows ∧
    ∀ u ∈ old ++ [tr1, tr2], StrictGrows u tr2 ∨ u = tr2 := by
  have e1 := c8_extend1 hold hbelow hg1
  have e2 := c8_extend1 e1.1 e1.2 hg2
  have hre : old ++ [tr1, tr2] = (old ++ [tr1]) ++ [tr2] := by simp
  rw [hre]
  exact e2

/-- The induction invariant for C8: all per-session update sequences
emitted so far form strict chains, every emitted update snapshot sits
(weakly) below the session's current stored transcript, sessions never
observed in the registry have no updates, and the id counter is fresh. -/
def C8Inv (c : ConnState) (outs : List ServerMsg) : Prop :=
  (∀ id, (updatesFor id outs).Pairwise StrictGrows) ∧
  (∀ id st, lookupSession c.sessions id = some st →
      ∀ u ∈ updatesFor id outs, StrictGrows u st.transcript ∨ u = st.transcript) ∧
  (∀ id, lookupSession c.sessions id = none → updatesFor id outs = []) ∧
  WFConn c

/-- Steps that neither touch the registry nor emit updates preserve the
C8 invariant. -/
theorem c8Inv_of_no_updates {c c2 : ConnState} {outs new : List ServerMsg}
    (h : C8Inv c outs) (hsess : c2.sessions = c.sessions)
    (hnext : c2.nextId = c.nextId)
    (hnew : ∀ id, updatesFor id new = []) : C8Inv c2 (outs ++ new) := by
  obtain ⟨hP, hB, hN, hW⟩ := h
  refine ⟨?_, ?_, ?_, ?_⟩
  · intro id
    rw [updatesFor_append, hnew, List.append_nil]
    exact hP id
  · intro id st hlk u hu
    rw [updatesFor_append, hnew, List.append_nil] at hu
    rw [hsess] at hlk
    exact hB id st hlk u hu
  · intro id hlk
    rw [updatesFor_append, hnew, List.append_nil]
    rw [hsess] at hlk
    exact hN id hlk
  · intro p hp
    rw [hsess] at hp
    rw [hnext]
    exact hW p hp

/-- A step that rewrites one registered session and emits one update for
it, strictly extending its stored transcript, preserves the C8
invariant. -/
theorem c8Inv_write1 {c c2 : ConnState} {outs new : List ServerMsg}
    (h : C8Inv c outs) {sid : Nat} {stA st2 : SessionState}
    {t1 : List Utterance}
    (hlk : lookupSession c.sessions sid = some stA)
    (hsess : c2.sessions = setSession c.sessions sid st2)
    (hnext : c2.nextId = c.nextId)
    (hnew : ∀ id, updatesFor id new = if sid = id then [t1] else [])
    (hg : StrictGrows stA.transcript t1)
    (htr : st2.transcript = t1) : C8Inv c2 (outs ++ new) := by
  obtain ⟨hP, hB, hN, hW⟩ := h
  have hext := c8_extend1 (hP sid) (hB sid stA hlk) hg
  refine ⟨?_, ?_, ?_, ?_⟩
  · intro id
    rw [updatesFor_append, hnew id]
    by_cases hid : sid = id
    · subst hid
      rw [if_pos rfl]
      exact hext.1
    · rw [if_neg hid, List.append_nil]
      exact hP id
  · intro id st hlk2 u hu
    rw [hsess, lookup_setSession] at hlk2
    rw [updatesFor_append, hnew id] at hu
    by_cases hid : sid = id
    · subst hid
      rw [if_pos rfl] at hlk2 hu
      cases hlk2
      rw [htr]
      exact hext.2 u hu
    · rw [if_neg hid, List.append_nil] at hu
      rw [if_neg hid] at hlk2
      exact hB id st hlk2 u hu
  · intro id hlk2
    rw [hsess, lookup_setSession] at hlk2
    by_cases hid : sid = id
    · rw [if_pos hid] at hlk2
      exact absurd hlk2 (by simp)
    · rw [if_neg hid] at hlk2
      rw [updatesFor_append, hnew id, if_neg hid, List.append_nil]
      exact hN id hlk2
  · intro p hp
    rw [hsess] at hp
    rw [hnext]
    rcases mem_setSession hp with heq | hp2
    · rw [heq]
      exact lookup_lt_nextId hW hlk
    · exact hW p hp2

/-- A step that rewrites one registered session and emits two updates for
it, each strictly extending the previous snapshot, preserves the C8
invariant. -/
theorem c8Inv_write2 {c c2 : ConnState} {outs new : List ServerMsg}
    (h : C8Inv c outs) {sid : Nat} {stA st2 : SessionState}
    {t1 t2 : List Utterance}
    (hlk : lookupSession c.sessions sid = some stA)
    (hsess : c2.sessions = setSession c.sessions sid st2)
    (hnext : c2.nextId = c.nextId)
    (hnew : ∀ id, updatesFor id new = if sid = id then [t1, t2] else [])
    (hg1 : StrictGrows stA.transcript t1) (hg2 : StrictGrows t1 t2)
    (htr : st2.transcript = t2) : C8Inv c2 (outs ++ new) := by
  obtain ⟨hP, hB, hN, hW⟩ := h
  have hext := c8_extend2 (hP sid) (hB sid stA hlk) hg1 hg2
  refine ⟨?_, ?_, ?_, ?_⟩
  · intro id
    rw [updatesFor_append, hnew id]
    by_cases hid : sid = id
    · subst hid
      rw [if_pos rfl]
      exact hext.1
    · rw [if_neg hid, List.append_nil]
      exact hP id
  · intro id st hlk2 u hu
    rw [hsess, lookup_setSession] at hlk2
    rw [updatesFor_append, hnew id] at hu
    by_cases hid : sid = id
    · subst hid
      rw [if_pos rfl] at hlk2 hu
      cases hlk2
      rw [htr]
      exact hext.2 u hu
    · rw [if_neg hid, List.append_nil] at hu
      rw [if_neg hid] at hlk2
      exact hB id st hlk2 u hu
  · intro id hlk2
    rw [hsess, lookup_setSession] at hlk2
    by_cases hid : sid = id
    · rw [if_pos hid] at hlk2
      exact absurd hlk2 (by simp)
    · rw [if_neg hid] at hlk2
      rw [updatesFor_append, hnew id, if_neg hid, List.append_nil]
      exact hN id hlk2
  · intro p hp
    rw [hsess] at hp
    rw [hnext]
    rcases mem_setSession hp with heq | hp2
    · rw [heq]
      exact lookup_lt_nextId hW hlk
    · exact hW p hp2

/-- The C8 invariant is preserved by every handler step. -/
theorem c8Inv_step (o : Oracle) (c : ConnState) (e : ConnEvent)
    (outs : List ServerMsg) (h : C8Inv c outs) :
    C8Inv (handleEvent o c e).1 (outs ++ (handleEvent o c e).2) := by
  obtain ⟨hP, hB, hN, hW⟩ := h
  cases e with
  | audioStart => exact c8Inv_of_no_updates ⟨hP, hB, hN, hW⟩ rfl rfl fun id => rfl
  | binaryFrame bytes =>
      exact c8Inv_of_no_updates ⟨hP, hB, hN, hW⟩ rfl rfl fun id => rfl
  | invalidJson =>
      exact c8Inv_of_no_updates ⟨hP, hB, hN, hW⟩ rfl rfl fun id => rfl
  | closeConn =>
      exact c8Inv_of_no_updates ⟨hP, hB, hN, hW⟩ rfl rfl fun id => rfl
  | startMsg m =>
      have hln : lookupSession c.sessions c.nextId = none := by
        cases hl : lookupSession c.sessions c.nextId with
        | none => rfl
        | some stx => exact absurd (lookup_lt_nextId hW hl) (Nat.lt_irrefl _)
      have hold_nil : updatesFor c.nextId outs = [] := hN _ hln
      have hnew : ∀ id, updatesFor id (handleStart o c m).2 =
          if c.nextId = id then [[⟨"interviewer", o.greetingText⟩]] else [] := by
        intro id
        by_cases hper : o.personaText = "" <;>
          simp [handleStart, hper, updatesFor]
      have hsess : (handleStart o c m).1.sessions =
          setSession c.sessions c.nextId
            { transcript := [⟨"interviewer", o.greetingText⟩], turns := 0,
              maxTurns := m.getD 6, done := false, overallScore := 0 } := rfl
      have hnext : (handleStart o c m).1.nextId = c.nextId + 1 := rfl
      show C8Inv (handleStart o c m).1 (outs ++ (handleStart o c m).2)
      refine ⟨?_, ?_, ?_, ?_⟩
      · intro id
        rw [updatesFor_append, hnew id]
        by_cases hid : c.nextId = id
        · subst hid
          rw [if_pos rfl, hold_nil, List.nil_append]
          exact List.pairwise_singleton _ _
        · rw [if_neg hid, List.append_nil]
          exact hP id
      · intro id st hlk2 u hu
        rw [hsess, lookup_setSession] at hlk2
        rw [updatesFor_append, hnew id] at hu
        by_cases hid : c.nextId = id
        · subst hid
          rw [if_pos rfl] at hlk2 hu
          cases hlk2
          rw [hold_nil, List.nil_append, List.mem_singleton] at hu
          exact Or.inr hu
        · rw [if_neg hid, List.append_nil] at hu
          rw [if_neg hid] at hlk2
          exact hB id st hlk2 u hu
      · intro id hlk2
        rw [hsess, lookup_setSession] at hlk2
        by_cases hid : c.nextId = id
        · rw [if_pos hid] at hlk2
          exact absurd hlk2 (by simp)
        · rw [if_neg hid] at hlk2
          rw [updatesFor_append, hnew id, if_neg hid, List.append_nil]
          exact hN id hlk2
      · intro p hp
        rw [hsess] at hp
        rw [hnext]
        rcases mem_setSession hp with heq | hp2
        · rw [heq]
          exact Nat.lt_succ_self _
        · exact Nat.lt_succ_of_lt (hW p hp2)
  | audioEnd =>
      show C8Inv (handleAudioEnd o c).1 (outs ++ (handleAudioEnd o c).2)
      cases hsid : c.sessionId with
      | none =>
          rw [handleAudioEnd_no_session o c (by unfold activeSession; rw [hsid])]
          exact c8Inv_of_no_updates ⟨hP, hB, hN, hW⟩ rfl rfl fun id => rfl
      | some sid =>
          cases hlk : lookupSession c.sessions sid with
          | none =>
              rw [handleAudioEnd_no_session o c
                (by unfold activeSession; rw [hsid]; exact hlk)]
              exact c8Inv_of_no_updates ⟨hP, hB, hN, hW⟩ rfl rfl fun id => rfl
          | some stA =>
              cases hdA : stA.done with
              | true =>
                  rw [handleAudioEnd_done o c sid stA hsid hlk hdA]
                  exact c8Inv_of_no_updates ⟨hP, hB, hN, hW⟩ rfl rfl fun id => rfl
              | false =>
                  by_cases hch : c.audioChunks = []
                  · rw [handleAudioEnd_empty o c sid stA hsid hlk hdA hch]
                    exact c8Inv_write1 ⟨hP, hB, hN, hW⟩ hlk rfl rfl
                      (fun id => rfl)
                      (strictGrows_append _ _ (by simp)) rfl
                  · cases hcont : turnDecisionContinue stA.turns stA.maxTurns with
                    | true =>
                        rw [handleAudioEnd_continue o c sid stA hsid hlk hdA hch hcont]
                        refine c8Inv_write2 ⟨hP, hB, hN, hW⟩ hlk rfl rfl ?_
                          (strictGrows_append _ _ (by simp))
                          (strictGrows_append _ _ (by simp)) rfl
                        intro id
                        by_cases hid : sid = id <;> simp [updatesFor, hid]
                    | false =>
                        rw [handleAudioEnd_eval o c sid stA hsid hlk hdA hch hcont]
                        refine c8Inv_write2 ⟨hP, hB, hN, hW⟩ hlk rfl rfl ?_
                          (strictGrows_append _ _ (by simp))
                          (strictGrows_append _ _ (by simp)) rfl
                        intro id
                        by_cases hid : sid = id <;> simp [updatesFor, hid]
  | stopMsg =>
      show C8Inv (handleStop o c).1 (outs ++ (handleStop o c).2)
      cases hsid : c.sessionId with
      | none =>
          rw [handleStop_no_session o c (by unfold activeSession; rw [hsid])]
          exact c8Inv_of_no_updates ⟨hP, hB, hN, hW⟩ rfl rfl fun id => rfl
      | some sid =>
          cases hlk : lookupSession c.sessions sid with
          | none =>
              rw [handleStop_no_session o c
                (by unfold activeSession; rw [hsid]; exact hlk)]
              exact c8Inv_of_no_updates ⟨hP, hB, hN, hW⟩ rfl rfl fun id => rfl
          | some stA =>
              cases hdA : stA.done with
              | true =>
                  rw [handleStop_done o c sid stA hsid hlk hdA]
                  exact c8Inv_of_no_updates ⟨hP, hB, hN, hW⟩ rfl rfl fun id => rfl
              | false =>
                  rw [handleStop_eval o c sid stA hsid hlk hdA]
                  exact c8Inv_write1 ⟨hP, hB, hN, hW⟩ hlk rfl rfl
                    (fun id => rfl)
                    (strictGrows_append _ _ (by simp)) rfl

/-- C8.  In every run of the connection from its initial state, the
transcripts carried by the `transcript_update` messages of any one
session form a strictly growing chain — each payload is a strict prefix
of every later payload — and every emitted payload is a (possibly full)
prefix of the transcript finally stored for that session: utterances are
only ever appended, never mutated or removed. -/
theorem c8_transcript_prefix_chain (evs : List (Oracle × ConnEvent)) (id : Nat) :
    (updatesFor id (runConn initConn evs).2).Pairwise StrictGrows ∧
    (∀ st, lookupSession (runConn initConn evs).1.sessions id = some st →
      ∀ u ∈ updatesFor id (runConn initConn evs).2,
        StrictGrows u st.transcript ∨ u = st.transcript) := by
  have h0 : C8Inv initConn [] := by
    refine ⟨?_, ?_, ?_, ?_⟩
    · intro id2
      exact List.Pairwise.nil
    · intro id2 st hlk
      simp [initConn, lookupSession] at hlk
    · intro id2 hlk
      rfl
    · intro p hp
      simp [initConn] at hp
  have hrun := run_preserve (P := C8Inv) c8Inv_step evs initConn [] h0
  rw [List.nil_append] at hrun
  exact ⟨hrun.1 id, fun st hlk => hrun.2.1 id st hlk⟩

/-- C8, witness for `c8_transcript_prefix_chain` on the zero-frame run:
the first published snapshot (the greeting alone) sits strictly below the
finally stored transcript. -/
theorem c8_transcript_prefix_chain_witness :
    (lookupSession (runConn initConn evs4).1.sessions 0 =
       some { transcript := [⟨"interviewer", "hello"⟩, noAudioSentinel],
              turns := 0, maxTurns := 3, done := false, overallScore := 0 } ∧
     [(⟨"interviewer", "hello"⟩ : Utterance)] ∈
       updatesFor 0 (runConn initConn evs4).2) ∧
    (StrictGrows [(⟨"interviewer", "hello"⟩ : Utterance)]
        (SessionState.transcript
          { transcript := [⟨"interviewer", "hello"⟩, noAudioSentinel],
            turns := 0, maxTurns := 3, done := false, overallScore := 0 }) ∨
     [(⟨"interviewer", "hello"⟩ : Utterance)] =
        SessionState.transcript
          { transcript := [⟨"interviewer", "hello"⟩, noAudioSentinel],
            turns := 0, maxTurns := 3, done := false, overallScore := 0 }) :=
  ⟨⟨by decide, by decide⟩,
   (c8_transcript_prefix_chain evs4 0).2 _ (by decide) _ (by decide)⟩
